import Mathlib

/-
Verification of the conversation state machine and expense pipeline of the
wp-expenss WhatsApp expense tracker.

The TypeScript sources are shallowly embedded:
* JS strings are `List Char` (`Str`); each JS string operation used by the
  code (trim, toLowerCase, includes, the specific regular expressions) is
  embedded as an executable Lean function over `Str`.
* JS numbers are modelled as `ℚ` (the code only performs exact decimal
  arithmetic on prices and budgets; float representation error is not
  modelled).
* The MongoDB collections are modelled as lists kept in natural (insertion)
  order, with `findOne`, `findOneAndUpdate`-with-upsert and friends embedded
  per call site.
* External collaborators (the messaging channel, Cloudinary uploads, the
  OCR/LLM extraction) are parameters of the embedded operations, following
  the repository's own seam: `extractExpenseWithConfidence` is an explicit
  placeholder in the source, and message sends are modelled as structured
  outcomes instead of formatted reply strings.
-/

set_option autoImplicit false

namespace WpExpense

/-- JS strings are embedded as lists of characters. -/
abbrev Str := List Char

/-- Character class of the JS regex `\d`. -/
def isDigitC (c : Char) : Bool := '0' ≤ c && c ≤ '9'

/-- Whitespace as matched by JS `\s` and removed by `String.prototype.trim`
(ASCII subset: space, tab, line feed, carriage return, form feed,
vertical tab). -/
def isWsC (c : Char) : Bool :=
  c = ' ' || c = '\t' || c = '\n' || c = '\r' || c = '\x0c' || c = '\x0b'

/-- Character class of the JS regex `[a-z]` after lowercasing, i.e. ASCII
letters, as tested by `/[a-zA-Z]/`. -/
def isAlphaC (c : Char) : Bool :=
  ('a' ≤ c && c ≤ 'z') || ('A' ≤ c && c ≤ 'Z')

/-- Character class of the JS regex `[A-Z]`. -/
def isUpperAZ (c : Char) : Bool := 'A' ≤ c && c ≤ 'Z'

/-- Character class of the JS regex `\w`: letters, digits and underscore. -/
def isWordC (c : Char) : Bool := isAlphaC c || isDigitC c || c = '_'

/-- Embedding of `String.prototype.toLowerCase` (ASCII). -/
def jsToLower (s : Str) : Str := s.map Char.toLower

/-- Embedding of `String.prototype.trim`. -/
def jsTrim (s : Str) : Str :=
  ((s.dropWhile isWsC).reverse.dropWhile isWsC).reverse

/-- Embedding of `String.prototype.includes needle` on haystack `hay`. -/
def includesSub (hay needle : Str) : Bool :=
  match hay with
  | [] => needle.isEmpty
  | _ :: t => needle.isPrefixOf hay || includesSub t needle

/-- Embedding of `String.prototype.startsWith p`. -/
def startsWithS (s p : Str) : Bool := p.isPrefixOf s

/-- The numeric value of a list of decimal digit characters
(JS `parseFloat` / `parseInt` on an all-digit token). -/
def digitsVal (ds : Str) : Nat :=
  ds.foldl (fun a c => a * 10 + (c.toNat - 48)) 0

/-- Embedding of `Math.round(x * 100) / 100`, the 2-decimal rounding the
code applies to prices (JS `Math.round t = ⌊t + 1/2⌋`). -/
def round2 (x : ℚ) : ℚ := (⌊x * 100 + 1 / 2⌋ : ℚ) / 100

/-!  CurrencyService (src/src/services/CurrencyService.ts)  -/

/-- Helper building one alias entry of the currency table. -/
def cm (a b : String) : Str × Str := (a.data, b.data)

/-- The ordered alias → ISO-code table `CurrencyService.currencyMap`.
Object literal key order is preserved, matching `Object.entries` iteration
order in the source. -/
def currencyMap : List (Str × Str) :=
  [cm "usd" "USD", cm "dollar" "USD", cm "dollars" "USD",
   cm "us dollar" "USD", cm "american dollar" "USD",
   cm "eur" "EUR", cm "euro" "EUR", cm "euros" "EUR", cm "european" "EUR",
   cm "gbp" "GBP", cm "pound" "GBP", cm "pounds" "GBP",
   cm "british pound" "GBP", cm "sterling" "GBP",
   cm "inr" "INR", cm "rupee" "INR", cm "rupees" "INR",
   cm "indian rupee" "INR", cm "indian rupees" "INR",
   cm "bdt" "BDT", cm "taka" "BDT", cm "takas" "BDT",
   cm "bangladeshi taka" "BDT", cm "tk" "BDT",
   cm "ngn" "NGN", cm "naira" "NGN", cm "nairas" "NGN",
   cm "nigerian naira" "NGN", cm "nigerian dollar" "NGN",
   cm "pkr" "PKR", cm "pakistani rupee" "PKR", cm "pakistani rupees" "PKR",
   cm "lkr" "LKR", cm "sri lankan rupee" "LKR", cm "sri lankan rupees" "LKR",
   cm "cad" "CAD", cm "canadian dollar" "CAD", cm "canadian dollars" "CAD",
   cm "aud" "AUD", cm "australian dollar" "AUD", cm "australian dollars" "AUD",
   cm "jpy" "JPY", cm "yen" "JPY", cm "japanese yen" "JPY",
   cm "cny" "CNY", cm "yuan" "CNY", cm "chinese yuan" "CNY", cm "rmb" "CNY",
   cm "krw" "KRW", cm "won" "KRW", cm "korean won" "KRW",
   cm "thb" "THB", cm "baht" "THB", cm "thai baht" "THB",
   cm "myr" "MYR", cm "ringgit" "MYR", cm "malaysian ringgit" "MYR",
   cm "sgd" "SGD", cm "singapore dollar" "SGD", cm "singaporean dollar" "SGD",
   cm "hkd" "HKD", cm "hong kong dollar" "HKD",
   cm "php" "PHP", cm "peso" "PHP", cm "pesos" "PHP",
   cm "philippine peso" "PHP",
   cm "idr" "IDR", cm "rupiah" "IDR", cm "indonesian rupiah" "IDR",
   cm "vnd" "VND", cm "dong" "VND", cm "vietnamese dong" "VND"]

/-- Scan of the fallback regex `\b[A-Z]{3}\b` over the raw (uncased) text:
leftmost three-uppercase-letter token delimited by non-word characters or
the ends of the string.  `prevIsWord` records whether the character before
the current position is a `\w` character. -/
def isoScanAux (prevIsWord : Bool) : Str → Option Str
  | [] => none
  | c :: cs =>
    match cs with
    | c2 :: c3 :: rest =>
      if !prevIsWord && isUpperAZ c && isUpperAZ c2 && isUpperAZ c3 &&
          !(match rest with | [] => false | d :: _ => isWordC d) then
        some [c, c2, c3]
      else
        isoScanAux (isWordC c) cs
    | _ => none

/-- First match of `\b[A-Z]{3}\b` in `text`, if any. -/
def isoScan (text : Str) : Option Str := isoScanAux false text

/-- Embedding of `CurrencyService.detectCurrency`: exact table lookup of the
lowercased trimmed text, then first table entry whose alias occurs as a
substring, then the `\b[A-Z]{3}\b` fallback accepted only for known codes. -/
def detectCurrency (text : Str) : Option Str :=
  let normalizedText := jsTrim (jsToLower text)
  match currencyMap.find? (fun kv => kv.1 == normalizedText) with
  | some kv => some kv.2
  | none =>
    match currencyMap.findSome?
        (fun kv => if includesSub normalizedText kv.1 then some kv.2 else none) with
    | some v => some v
    | none =>
      match isoScan text with
      | some iso =>
        if (currencyMap.map Prod.snd).contains iso then some iso else none
      | none => none

/-- Calendar dates used to model the JS `new Date()` clock. -/
structure YMD where
  year : Nat
  month : Nat
  day : Nat
  deriving DecidableEq, Repr

/-- The decimal digit character for `n` (`n ≥ 9` clamps to `'9'`; callers
only pass `n < 10`). -/
def digitCh (n : Nat) : Char :=
  match n with
  | 0 => '0'
  | 1 => '1'
  | 2 => '2'
  | 3 => '3'
  | 4 => '4'
  | 5 => '5'
  | 6 => '6'
  | 7 => '7'
  | 8 => '8'
  | _ => '9'

/-- Fueled decimal printer; `fuel = n + 1` always suffices since `n / 10`
strictly decreases while `n ≥ 10`. -/
def natStrAux : Nat → Nat → Str
  | 0, _ => []
  | f + 1, n =>
    if n < 10 then [digitCh n]
    else natStrAux f (n / 10) ++ [digitCh (n % 10)]

/-- Decimal numeral of a natural number (JS number → string coercion). -/
def natStr (n : Nat) : Str := natStrAux (n + 1) n

/-- Two-digit zero padding, as in `String(x).padStart(2, "0")`. -/
def pad2 (n : Nat) : Str := if n < 10 then '0' :: natStr n else natStr n

/-- Four-digit zero padding (ISO year of `Date.prototype.toISOString`). -/
def pad4 (n : Nat) : Str :=
  if n < 10 then '0' :: '0' :: '0' :: natStr n
  else if n < 100 then '0' :: '0' :: natStr n
  else if n < 1000 then '0' :: natStr n
  else natStr n

/-- The `YYYY-MM-DD` string `new Date().toISOString().slice(0, 10)`. -/
def isoDate (d : YMD) : Str := pad4 d.year ++ '-' :: (pad2 d.month ++ '-' :: pad2 d.day)

/-- The `YYYY-MM` string `new Date().toISOString().slice(0, 7)`. -/
def isoMonth (d : YMD) : Str := pad4 d.year ++ '-' :: pad2 d.month

/-- Days in a calendar month as computed by
`new Date(year, month + 1, 0).getDate()`. -/
def daysInMonth (y m : Nat) : Nat :=
  if m = 2 then
    if y % 4 = 0 && (y % 100 ≠ 0 || y % 400 = 0) then 29 else 28
  else if m = 4 || m = 6 || m = 9 || m = 11 then 30
  else 31

/-- Embedding of `CurrencyService.getDailyLimit`: monthly budget divided by
the number of days in the current month, rounded to cents. -/
def getDailyLimit (today : YMD) (monthlyBudget : ℚ) : ℚ :=
  round2 (monthlyBudget / (daysInMonth today.year today.month : ℚ))

/-- Embedding of `CurrencyService.calculateDynamicDailyLimit`: remaining
budget divided by the remaining days of the month including today; `0` when
no days remain. -/
def calculateDynamicDailyLimit (today : YMD) (remainingBudget : ℚ) : ℚ :=
  let remainingDays : Int := (daysInMonth today.year today.month : Int) - today.day + 1
  if remainingDays ≤ 0 then 0
  else round2 (remainingBudget / (remainingDays : ℚ))

/-!  Text Expense Parser (`ExpenseService.extractExpenseData`)  -/

/-- Match of the regex `(\d+(?:[\.,]\d+)?)(?!.*\d)` (the last number in the
text).  Returns `(before, token, after)`: the characters before the match,
the matched numeric token, and the characters after it.  The match
necessarily contains the final digit of the string; the token is the maximal
digit run ending there, extended left across a single `.` or `,` separator
when another digit run immediately precedes it. -/
def splitLastNumber (cs : Str) : Option (Str × Str × Str) :=
  let rev := cs.reverse
  let afterT := (rev.takeWhile (fun c => !isDigitC c)).reverse
  let rest1 := rev.dropWhile (fun c => !isDigitC c)
  if rest1.isEmpty then none
  else
    let d2 := (rest1.takeWhile isDigitC).reverse
    let rest2 := rest1.dropWhile isDigitC
    match rest2 with
    | sep :: r3 =>
      if (sep == '.' || sep == ',') && isDigitC (r3.headD 'x') then
        some ((r3.dropWhile isDigitC).reverse,
              (r3.takeWhile isDigitC).reverse ++ sep :: d2, afterT)
      else some (rest2.reverse, d2, afterT)
    | [] => some ([], d2, afterT)

/-- Value of `parseFloat(token.replace(',', '.'))` on a matched numeric
token (`\d+` optionally followed by a separator and `\d+`); such a token
always parses to a finite value, so the source's `isNaN` guard never
fires. -/
def tokenValQ (tok : Str) : ℚ :=
  let intPart := tok.takeWhile isDigitC
  let rest := tok.dropWhile isDigitC
  match rest with
  | _ :: frac => (digitsVal intPart : ℚ) + (digitsVal frac : ℚ) / ((10 : ℚ) ^ frac.length)
  | [] => (digitsVal intPart : ℚ)

/-- Embedding of `item.replace(/\s{2,}/g, ' ')`: every maximal whitespace
run of length at least two is replaced by a single space; shorter runs and
other characters are kept.  `run` accumulates the current whitespace run. -/
def collapseWsGo (run : Str) : Str → Str
  | [] => if run.length ≥ 2 then [' '] else run
  | c :: cs =>
    if isWsC c then collapseWsGo (run ++ [c]) cs
    else (if run.length ≥ 2 then [' '] else run) ++ c :: collapseWsGo [] cs

/-- Embedding of `item.replace(/\s{2,}/g, ' ')`. -/
def collapseWs (s : Str) : Str := collapseWsGo [] s

/-- In-flight expense candidate (`ExpenseData` of src/src/types/types.ts). -/
structure ExpenseData where
  item : Str
  price : ℚ
  currency : Str
  date : Str
  imageUrl : Option Str := none
  imageProvider : Option Str := none
  imageRef : Option Str := none
  deriving DecidableEq, Repr

/-- Embedding of `ExpenseService.extractExpenseData`: the last number is the
price, the text before it (or, if empty, after it) is the item, `Item` when
both are empty; currency is `detectCurrency` over the whole trimmed text
with the literal fallback `USD`; the date is the processing day (`today`,
modelling `new Date().toISOString().slice(0, 10)`). -/
def extractExpenseData (today : Str) (text : Str) : Option ExpenseData :=
  let normalized := jsTrim text
  if normalized.isEmpty then none
  else
    match splitLastNumber normalized with
    | none => none
    | some (before, tok, after) =>
      let price := tokenValQ tok
      let beforeT := jsTrim before
      let afterT := jsTrim after
      let item0 :=
        if !beforeT.isEmpty then beforeT
        else if !afterT.isEmpty then afterT
        else "Item".data
      let item := jsTrim (collapseWs item0)
      let currency := (detectCurrency normalized).getD ("USD".data)
      some { item := item, price := price, currency := currency, date := today }

/-!  Data model (src/src/models/ExpenseModel.ts) and MongoService
(src/unnamed/part_003, the variant with Counter and User collections)  -/

/-- The per-user conversation states of `MongoService.getUserState`. -/
inductive UserState where
  | new
  | awaiting_budget
  | awaiting_currency
  | active
  | awaiting_ocr_confirmation
  | awaiting_currency_change
  deriving DecidableEq, Repr

/-- A document of the `User` collection (`UserSchema`): state defaults to
`new`; `pendingExpense` and `pendingCurrency` are the schemaless extra
paths written by the pending-draft methods. -/
structure UserDoc where
  userId : Str
  state : UserState := .new
  currency : Option Str := none
  pendingExpense : Option ExpenseData := none
  pendingCurrency : Option Str := none
  deriving DecidableEq, Repr

/-- A document of the `Expense` collection.  `ExpenseSchema` declares
exactly the paths userId, item, price, currency, date and number — in
particular it has no `timestamps` option and no `createdAt` path, and the
`imageUrl`/`imageProvider`/`imageRef` keys passed by `addToMongo` are not in
the schema (mongoose strict mode drops unknown paths on create). -/
structure ExpenseDoc where
  userId : Str
  item : Str
  price : ℚ
  currency : Str
  date : Str
  number : Nat
  deriving DecidableEq, Repr

/-- A document of the `Budget` collection, one per (user, `YYYY-MM`). -/
structure BudgetDoc where
  userId : Str
  month : Str
  budget : ℚ
  currency : Str
  deriving DecidableEq, Repr

/-- The MongoDB state: each collection as a list in natural (insertion)
order — `create` appends, unindexed scans traverse left to right. -/
structure DB where
  users : List UserDoc := []
  expenses : List ExpenseDoc := []
  budgets : List BudgetDoc := []
  counters : List (Str × Nat) := []
  deriving DecidableEq, Repr

/-- Replace the first list element satisfying `p` by its image under `f`
(the effect of `findOneAndUpdate` on an existing document). -/
def replaceFirst {α : Type} (p : α → Bool) (f : α → α) : List α → List α
  | [] => []
  | x :: xs => if p x then f x :: xs else x :: replaceFirst p f xs

/-- Remove the first list element satisfying `p` (the effect of
`findByIdAndDelete` on the document returned by a `findOne`). -/
def removeFirst {α : Type} (p : α → Bool) : List α → List α
  | [] => []
  | x :: xs => if p x then xs else x :: removeFirst p xs

/-- `User.findOne({ userId })`. -/
def findUser (db : DB) (u : Str) : Option UserDoc :=
  db.users.find? (fun d => d.userId == u)

/-- `findOneAndUpdate({ userId }, update, { upsert: true })` on the `User`
collection: update the first matching document, else insert `mk`. -/
def userUpsert (db : DB) (u : Str) (f : UserDoc → UserDoc) (mk : UserDoc) : DB :=
  if db.users.any (fun d => d.userId == u) then
    { db with users := replaceFirst (fun d => d.userId == u) f db.users }
  else
    { db with users := db.users ++ [mk] }

/-- `MongoService.getUserState`: the user's state, `new` when absent. -/
def getUserState (db : DB) (u : Str) : UserState :=
  (findUser db u).elim UserState.new (fun d => d.state)

/-- `MongoService.setUserState` (upsert). -/
def setUserState (db : DB) (u : Str) (s : UserState) : DB :=
  userUpsert db u (fun d => { d with state := s }) { userId := u, state := s }

/-- `MongoService.getUserCurrency`: the user's stored preferred currency
with the literal fallback `USD`. -/
def getUserCurrency (db : DB) (u : Str) : Str :=
  ((findUser db u).bind (fun d => d.currency)).getD ("USD".data)

/-- `MongoService.setUserCurrency` (upsert; also activates the user, as in
the source). -/
def setUserCurrency (db : DB) (u : Str) (c : Str) : DB :=
  userUpsert db u (fun d => { d with currency := some c, state := .active })
    { userId := u, currency := some c, state := .active }

/-- `MongoService.storePendingExpense`: stores the draft and moves the user
to `awaiting_ocr_confirmation` (upsert). -/
def storePendingExpense (db : DB) (u : Str) (e : ExpenseData) : DB :=
  userUpsert db u
    (fun d => { d with pendingExpense := some e, state := .awaiting_ocr_confirmation })
    { userId := u, pendingExpense := some e, state := .awaiting_ocr_confirmation }

/-- `MongoService.getPendingExpense`. -/
def getPendingExpense (db : DB) (u : Str) : Option ExpenseData :=
  (findUser db u).bind (fun d => d.pendingExpense)

/-- `MongoService.clearPendingExpense`: unset the draft and set the state to
`active` — note: no upsert, so a no-op when the user document is absent. -/
def clearPendingExpense (db : DB) (u : Str) : DB :=
  { db with
    users := replaceFirst (fun d => d.userId == u)
      (fun d => { d with pendingExpense := none, state := .active }) db.users }

/-- Modelled from the spec: `MongoService.storePendingImageExpenseDraft` is
called by the image pipeline (low-confidence branch of
`processImageMessage`) but its definition is not among the provided
sources.  Spec §4.3: the low-confidence "ask for amount" branch "leaves an
addressable pending draft that the next message must resolve against"; the
draft is later read back through `getPendingExpense` by
`finalizePendingImageExpense`.  Modelled as storing the draft on the user
document (upsert) without a state change, which §4.3 does not mention for
this branch. -/
def storePendingImageExpenseDraft (db : DB) (u : Str) (e : ExpenseData) : DB :=
  userUpsert db u (fun d => { d with pendingExpense := some e })
    { userId := u, pendingExpense := some e }

/-- The per-user counter key of `getNextExpenseNumber`. -/
def counterKey (u : Str) : Str := "expense_number:".data ++ u

/-- The current value of a counter, `0` when absent. -/
def counterVal (db : DB) (u : Str) : Nat :=
  ((db.counters.find? (fun kv => kv.1 == counterKey u)).map (fun kv => kv.2)).getD 0

/-- `MongoService.getNextExpenseNumber`: atomic
`findOneAndUpdate({ key }, { $inc: { seq: 1 } }, { upsert: true, new: true })`
— increments the per-user counter (creating it at 1) and returns the new
value.  The read-increment-write is a single step of the model, matching
the atomicity of `findOneAndUpdate`. -/
def getNextExpenseNumber (db : DB) (u : Str) : Nat × DB :=
  let k := counterKey u
  match db.counters.find? (fun kv => kv.1 == k) with
  | some kv =>
    let cs := replaceFirst (fun kv2 => kv2.1 == k) (fun kv2 => (kv2.1, kv2.2 + 1)) db.counters
    (kv.2 + 1, { db with counters := cs })
  | none => (1, { db with counters := db.counters ++ [(k, 1)] })

/-- `ExpenseService.addToMongo`: draw the next sequence number and append
the created document (`Expense.create`).  The image fields of the
`ExpenseData` are dropped, as the schema does not declare them. -/
def addToMongo (e : ExpenseData) (u : Str) (db : DB) : ExpenseDoc × DB :=
  let r := getNextExpenseNumber db u
  let doc : ExpenseDoc :=
    { userId := u, item := e.item, price := e.price, currency := e.currency,
      date := e.date, number := r.1 }
  (doc, { r.2 with expenses := r.2.expenses ++ [doc] })

/-- `MongoService.getMonthlyBudget`: budget of the current month
(`new Date().toISOString().slice(0, 7)`), `0` when absent. -/
def getMonthlyBudget (db : DB) (u : Str) (today : YMD) : ℚ :=
  ((db.budgets.find? (fun b => b.userId == u && b.month == isoMonth today)).map
    (fun b => b.budget)).getD 0

/-- `MongoService.setMonthlyBudgetWithCurrency`: upsert by
(user, current month). -/
def setMonthlyBudgetWithCurrency (db : DB) (u : Str) (amount : ℚ) (c : Str)
    (today : YMD) : DB :=
  if db.budgets.any (fun b => b.userId == u && b.month == isoMonth today) then
    let bs := replaceFirst (fun b => b.userId == u && b.month == isoMonth today)
      (fun b => { b with budget := amount, currency := c }) db.budgets
    { db with budgets := bs }
  else
    { db with budgets := db.budgets ++
        [{ userId := u, month := isoMonth today, budget := amount, currency := c }] }

/-- Result shape of `calculateMonthlyTotal` (`MonthlyTotal` of types.ts). -/
structure MonthlyTotal where
  month : Str
  year : Nat
  totalAmount : ℚ
  currency : Str
  expenseCount : Nat
  deriving DecidableEq, Repr

/-- English month names, for `toLocaleString("default", { month: "long" })`
in the default locale of the deployment. -/
def monthNames : List Str :=
  ["January".data, "February".data, "March".data, "April".data, "May".data,
   "June".data, "July".data, "August".data, "September".data, "October".data,
   "November".data, "December".data]

/-- `new Date(s).getFullYear()` for a well-formed ISO `YYYY-MM-DD` string. -/
def jsDateYear (s : Str) : Nat := digitsVal (s.take 4)

/-- `new Date(s).getMonth()` (0-based) for a well-formed ISO date string. -/
def jsDateMonth0 (s : Str) : Nat := digitsVal ((s.drop 5).take 2) - 1

/-- `toLocaleString("default", { month: "long" })` of the parsed month. -/
def monthNameOf (m0 : Nat) : Str := (monthNames.get? m0).getD ("Invalid Date".data)

/-- The anchored pattern
`^${currentYear}-${String(currentMonth + 1).padStart(2, "0")}` used as the
date filter in `calculateMonthlyTotal`. -/
def monthFilterStr (currentDate : Str) : Str :=
  natStr (jsDateYear currentDate) ++ '-' :: pad2 (jsDateMonth0 currentDate + 1)

/-- `MongoService.calculateMonthlyTotal`: sum the prices of the user's
expenses whose date string starts with the `YYYY-MM` of `currentDate`,
rounding the total to 2 decimals; the reported currency is that of the
first matching record in scan order (`USD` when there is none, or when the
first record's currency is the empty string). -/
def calculateMonthlyTotal (db : DB) (u : Str) (currentDate : Str) : MonthlyTotal :=
  let pat := monthFilterStr currentDate
  let es := db.expenses.filter (fun e2 => e2.userId == u && startsWithS e2.date pat)
  let totalAmount := es.foldl (fun a e2 => a + e2.price) 0
  let currency :=
    match es with
    | [] => "USD".data
    | e2 :: _ => if e2.currency.isEmpty then "USD".data else e2.currency
  { month := monthNameOf (jsDateMonth0 currentDate),
    year := jsDateYear currentDate,
    totalAmount := round2 totalAmount,
    currency := currency,
    expenseCount := es.length }

/-- `CurrencyService.getTodaysSpending`: unrounded sum of the prices of the
user's expenses dated exactly today. -/
def getTodaysSpending (db : DB) (u : Str) (today : YMD) : ℚ :=
  (db.expenses.filter (fun e2 => e2.userId == u && e2.date == isoDate today)).foldl
    (fun a e2 => a + e2.price) 0

/-- `Expense.findOne({ userId, number })`: first match in natural order. -/
def findExpenseByNumber (db : DB) (u : Str) (n : Nat) : Option ExpenseDoc :=
  db.expenses.find? (fun e2 => e2.userId == u && e2.number == n)

/-- Modelled behavior of `Expense.findOne({ userId }).sort({ createdAt: -1 })`
(the "most recent expense" lookup of `handleCorrection`).  `ExpenseSchema`
declares no `createdAt` path, so every stored document lacks the sort key;
all keys compare equal under the descending sort, and the unindexed
collection scan yields the documents in natural (insertion) order, so the
first-inserted matching document is returned — not the most recently
created one. -/
def findOneByUserSortCreatedAtDesc (db : DB) (u : Str) : Option ExpenseDoc :=
  db.expenses.find? (fun e2 => e2.userId == u)

/-!  ExpenseService operations (src/src/services/ExpenseService.ts).
Outbound replies are modelled as structured outcomes carrying the values the
reply builders (`buildAddedReply` etc.) are given; the reply text itself is
formatting only. -/

/-- The data each reply builder receives: entry number, item, currency,
price and date of the touched record, the recomputed monthly totals, the
budget, the remaining amount, and the dynamic daily limit (absent when no
positive budget is set). -/
structure Summary where
  number : Nat
  item : Str
  currency : Str
  price : ℚ
  date : Str
  month : Str
  year : Nat
  totalCurrency : Str
  totalAmount : ℚ
  expenseCount : Nat
  budget : ℚ
  remaining : ℚ
  dailyLimit : Option ℚ
  todaySpending : ℚ
  deriving DecidableEq, Repr

/-- The recomputation block shared by every operation:
`calculateMonthlyTotal` at `anchorDate` on the post-operation database,
`getMonthlyBudget`, `remaining = budget - totalAmount`,
`getTodaysSpending`, and the dynamic daily limit when `budget > 0`. -/
def summarize (db2 : DB) (u : Str) (today : YMD) (anchorDate : Str)
    (number : Nat) (item : Str) (currency : Str) (price : ℚ) (date : Str) :
    Summary :=
  let monthlyTotal := calculateMonthlyTotal db2 u anchorDate
  let budget := getMonthlyBudget db2 u today
  let remaining := budget - monthlyTotal.totalAmount
  let todaySpending := getTodaysSpending db2 u today
  let dailyLimit :=
    if budget > 0 then some (calculateDynamicDailyLimit today remaining) else none
  { number := number, item := item, currency := currency, price := price,
    date := date, month := monthlyTotal.month, year := monthlyTotal.year,
    totalCurrency := monthlyTotal.currency,
    totalAmount := monthlyTotal.totalAmount,
    expenseCount := monthlyTotal.expenseCount, budget := budget,
    remaining := remaining, dailyLimit := dailyLimit,
    todaySpending := todaySpending }

/-- Outcome of `processExpenseMessage`. -/
inductive TextAddResult where
  | added (s : Summary)
  | parseError
  deriving DecidableEq, Repr

/-- Embedding of `ExpenseService.processExpenseMessage`: parse the text,
stamp the user's saved currency over the detected one, round the price to
2 decimals, persist, and reply with the recomputed summary; parse failure
produces the format-error reply and no state change. -/
def processExpenseMessage (messageText : Str) (u : Str) (today : YMD) (db : DB) :
    TextAddResult × DB :=
  match extractExpenseData (isoDate today) messageText with
  | some e0 =>
    let e1 := { e0 with currency := getUserCurrency db u, price := round2 e0.price }
    let r := addToMongo e1 u db
    let s := summarize r.2 u today e1.date r.1.number e1.item e1.currency e1.price e1.date
    (.added s, r.2)
  | none => (.parseError, db)

/-- Result of the external image extraction
(`extractExpenseFromImage` / `extractExpenseWithConfidence`): a confidence
in [0,1] and a best-effort expense candidate. -/
structure OCRResult where
  confidence : ℚ
  expense : Option ExpenseData
  deriving DecidableEq, Repr

/-- Embedding of the source's placeholder
`ExpenseService.extractExpenseWithConfidence`: caption parses → confidence
0.6 with that candidate, else confidence 0 and no candidate. -/
def extractExpenseWithConfidence (today : Str) (caption : Str) : OCRResult :=
  match extractExpenseData today caption with
  | some e => { confidence := 6 / 10, expense := some e }
  | none => { confidence := 0, expense := none }

/-- A successful Cloudinary upload (`secureUrl` and `publicId`); `none`
models upload failure or an unconfigured Cloudinary service, both of which
the source swallows and continues without an image reference. -/
structure ImageUpload where
  url : Str
  publicId : Str
  deriving DecidableEq, Repr

/-- The caption-derived item-name hint of `processImageMessage`: a
non-empty caption containing no digit, trimmed and truncated to 50
characters; otherwise the empty string. -/
def captionNameHint (caption : Str) : Str :=
  if !(jsTrim caption).isEmpty && !(caption.any isDigitC) then
    (jsTrim caption).take 50
  else []

/-- Attach the upload result to an expense draft
(`if (uploadedImageUrl) { ... }`). -/
def attachImage (e : ExpenseData) (uploaded : Option ImageUpload) : ExpenseData :=
  match uploaded with
  | some up =>
    { e with imageUrl := some up.url, imageProvider := some ("cloudinary".data),
             imageRef := some up.publicId }
  | none => e

/-- Outcome of `processImageMessage`. -/
inductive ImageResult where
  | saved (s : Summary) (isFromCaption : Bool)
  | confirmationRequested
  | amountRequested (hint : Str)
  | clearerPhotoRequested
  | noReply
  deriving DecidableEq, Repr

/-- Embedding of `ExpenseService.processImageMessage`, with the external
image extraction result `ocr` as a parameter (the source's
`extractExpenseWithConfidence` is an explicit placeholder for the external
OCR/LLM collaborator) and the Cloudinary upload outcome as `uploaded`.
Case A: a parseable caption wins outright.  Cases B/C/D gate on the
confidence: ≥ 0.85 auto-save (with caption-hint item override), ≥ 0.5 store
a pending draft re-stamped to the user's currency and ask YES/NO (moving
the user to `awaiting_ocr_confirmation` via `storePendingExpense`), else
ask for the amount when a caption hint exists (storing a zero-price image
draft) or ask for a clearer photo.  In the medium branch the source
dereferences `ocrResult.expense!`; a null candidate there spreads to a
currency-only draft, modelled with empty item/date and zero price. -/
def processImageMessageWith (ocr : OCRResult) (uploaded : Option ImageUpload)
    (caption : Str) (u : Str) (today : YMD) (db : DB) : ImageResult × DB :=
  let userCurrency := getUserCurrency db u
  let hint := captionNameHint caption
  let finalSave := fun (e0 : ExpenseData) (isFromCaption : Bool) =>
    let e1 := { e0 with currency := userCurrency, price := round2 e0.price }
    let e2 := attachImage e1 uploaded
    let r := addToMongo e2 u db
    let s := summarize r.2 u today e2.date r.1.number e2.item e2.currency e2.price e2.date
    (ImageResult.saved s isFromCaption, r.2)
  let fromCaption :=
    if !(jsTrim caption).isEmpty then extractExpenseData (isoDate today) caption
    else none
  match fromCaption with
  | some e0 => finalSave e0 true
  | none =>
    if ocr.confidence ≥ 85 / 100 then
      match ocr.expense with
      | some e0 =>
        let e1 := if !hint.isEmpty then { e0 with item := hint } else e0
        finalSave e1 false
      | none => (.noReply, db)
    else if ocr.confidence ≥ 5 / 10 then
      let e1 :=
        match ocr.expense with
        | some e0 => if !hint.isEmpty then { e0 with item := hint } else e0
        | none => { item := [], price := 0, currency := [], date := [] }
      let pending := { e1 with currency := userCurrency }
      (.confirmationRequested, storePendingExpense db u pending)
    else
      if !hint.isEmpty then
        let draft : ExpenseData :=
          { item := hint, price := 0, currency := userCurrency, date := isoDate today }
        (.amountRequested hint,
         storePendingImageExpenseDraft db u (attachImage draft uploaded))
      else (.clearerPhotoRequested, db)

/-- `processImageMessage` as deployed: the pipeline applied to the
placeholder extraction result. -/
def processImageMessage (uploaded : Option ImageUpload) (caption : Str)
    (u : Str) (today : YMD) (db : DB) : ImageResult × DB :=
  processImageMessageWith (extractExpenseWithConfidence (isoDate today) caption)
    uploaded caption u today db

/-- Outcome of `handleOCRConfirmation`: whether the reply was handled (the
caller re-prompts for yes/no when not) and the summary when a draft was
persisted. -/
structure OCROutcome where
  handled : Bool
  saved : Option Summary
  deriving DecidableEq, Repr

/-- Embedding of `ExpenseService.handleOCRConfirmation`: lowercase and trim
the reply; on yes/y persist the pending draft re-stamped to the user's
current currency (if a draft exists) and clear it; on no/n discard the
draft; anything else is unhandled and leaves the database untouched. -/
def handleOCRConfirmation (response : Str) (u : Str) (today : YMD) (db : DB) :
    OCROutcome × DB :=
  let normalizedResponse := jsTrim (jsToLower response)
  if normalizedResponse == "yes".data || normalizedResponse == "y".data then
    match getPendingExpense db u with
    | some pending0 =>
      let pe := { pending0 with currency := getUserCurrency db u }
      let r := addToMongo pe u db
      let safeDate := if pe.date.isEmpty then isoDate today else pe.date
      let s := summarize r.2 u today safeDate r.1.number pe.item pe.currency pe.price safeDate
      ({ handled := true, saved := some s }, clearPendingExpense r.2 u)
    | none => ({ handled := false, saved := none }, db)
  else if normalizedResponse == "no".data || normalizedResponse == "n".data then
    ({ handled := true, saved := none }, clearPendingExpense db u)
  else ({ handled := false, saved := none }, db)

/-- Characters matched by `.` in a JS regex without the `s` flag
(anything but a line terminator). -/
def takeLine (s : Str) : Str := s.takeWhile (fun c => c ≠ '\n' && c ≠ '\r')

/-- Scan of the unanchored regex `/no it will be (.+)/i` over the message
body: the first position where the lowercased text continues with
`no it will be ` followed by at least one non-line-break character; the
capture is taken from the original text up to the end of the line. -/
def noItWillBeScan : Str → Option Str
  | [] => none
  | c :: cs =>
    if startsWithS (jsToLower (c :: cs)) ("no it will be ".data) then
      let grp := takeLine ((c :: cs).drop 14)
      if grp.isEmpty then noItWillBeScan cs else some grp
    else noItWillBeScan cs

/-- Outcome of `handleCorrection`. -/
inductive CorrectionResult where
  | updated (s : Summary)
  | silentNoMatch
  | parseError
  | noExpenseFound
  deriving DecidableEq, Repr

/-- Embedding of `ExpenseService.handleCorrection`: extract the correction
text after `no it will be`, re-parse it, stamp the user's saved currency,
and overwrite item/price/currency/date of the record returned by
`Expense.findOne({ userId }).sort({ createdAt: -1 })` (see
`findOneByUserSortCreatedAtDesc`); no match is a silent no-op. -/
def handleCorrection (messageBody : Str) (u : Str) (today : YMD) (db : DB) :
    CorrectionResult × DB :=
  match noItWillBeScan messageBody with
  | none => (.silentNoMatch, db)
  | some grp =>
    let correctionText := jsTrim grp
    match extractExpenseData (isoDate today) correctionText with
    | none => (.parseError, db)
    | some ce0 =>
      let ce := { ce0 with currency := getUserCurrency db u }
      match findOneByUserSortCreatedAtDesc db u with
      | none => (.noExpenseFound, db)
      | some lastExpense =>
        let pr := round2 ce.price
        let es := replaceFirst (fun e2 => e2.userId == u)
          (fun e2 => { e2 with item := ce.item, price := pr, currency := ce.currency, date := ce.date })
          db.expenses
        let db2 := { db with expenses := es }
        let s := summarize db2 u today ce.date lastExpense.number ce.item ce.currency pr ce.date
        (.updated s, db2)

/-- Match of `/^#(\d+)\s+(.*)/i`: leading `#`, the reference number, at
least one whitespace character, and the rest of the line. -/
def parseHashCommand (body : Str) : Option (Nat × Str) :=
  match body with
  | '#' :: rest =>
    let ds := rest.takeWhile isDigitC
    if ds.isEmpty then none
    else
      let r1 := rest.dropWhile isDigitC
      if (r1.takeWhile isWsC).isEmpty then none
      else some (digitsVal ds, takeLine (r1.dropWhile isWsC))
  | _ => none

/-- One attempt of `/edit\s+(\d+(?:\.\d+)?)/i` at the current position. -/
def tryEditPriceAt (s : Str) : Option ℚ :=
  if startsWithS (jsToLower s) ("edit".data) then
    let r1 := s.drop 4
    if (r1.takeWhile isWsC).isEmpty then none
    else
      let r2 := r1.dropWhile isWsC
      let ds := r2.takeWhile isDigitC
      if ds.isEmpty then none
      else
        match r2.dropWhile isDigitC with
        | '.' :: r4 =>
          let fs := r4.takeWhile isDigitC
          if fs.isEmpty then some ((digitsVal ds : ℚ))
          else some ((digitsVal ds : ℚ) + (digitsVal fs : ℚ) / 10 ^ fs.length)
        | _ => some ((digitsVal ds : ℚ))
  else none

/-- Scan of the unanchored `/edit\s+(\d+(?:\.\d+)?)/i` used for the
price-only edit: first matching position wins. -/
def editPriceScan : Str → Option ℚ
  | [] => none
  | c :: cs =>
    match tryEditPriceAt (c :: cs) with
    | some v => some v
    | none => editPriceScan cs

/-- Outcome of `handleExpenseEdit`. -/
inductive EditResult where
  | edited (s : Summary)
  | invalidFormat
  | notFound (n : Nat)
  | invalidEditFormat
  | parseError
  deriving DecidableEq, Repr

/-- Embedding of `ExpenseService.handleExpenseEdit`: `#N Edit 400` is a
price-only edit, any other `#N rest` re-parses `rest` as a full expense;
the record keeps its date, gets the user's saved currency, and the new
price rounded to 2 decimals; the summary is anchored at today. -/
def handleExpenseEdit (messageBody : Str) (u : Str) (today : YMD) (db : DB) :
    EditResult × DB :=
  match parseHashCommand messageBody with
  | none => (.invalidFormat, db)
  | some (n, rest) =>
    let editContent := jsTrim rest
    match findExpenseByNumber db u n with
    | none => (.notFound n, db)
    | some ex =>
      let commit := fun (newItem : Str) (newPrice : ℚ) =>
        let userCurrency := getUserCurrency db u
        let pr := round2 newPrice
        let es := replaceFirst (fun e2 => e2.userId == u && e2.number == n)
          (fun e2 => { e2 with item := newItem, price := pr, currency := userCurrency })
          db.expenses
        let db2 := { db with expenses := es }
        let s := summarize db2 u today (isoDate today) n newItem userCurrency pr (isoDate today)
        (EditResult.edited s, db2)
      if startsWithS (jsToLower editContent) ("edit ".data) then
        match editPriceScan editContent with
        | some pr0 => commit ex.item pr0
        | none => (.invalidEditFormat, db)
      else
        match extractExpenseData (isoDate today) editContent with
        | some ed => commit ed.item ed.price
        | none => (.parseError, db)

/-- Match of `/^#(\d+)\s+delete/i`. -/
def parseDeleteCommand (body : Str) : Option Nat :=
  match body with
  | '#' :: rest =>
    let ds := rest.takeWhile isDigitC
    if ds.isEmpty then none
    else
      let r1 := rest.dropWhile isDigitC
      if (r1.takeWhile isWsC).isEmpty then none
      else if startsWithS (jsToLower (r1.dropWhile isWsC)) ("delete".data) then
        some (digitsVal ds)
      else none
  | _ => none

/-- Outcome of `handleExpenseDelete`. -/
inductive DeleteResult where
  | deleted (s : Summary)
  | invalidFormat
  | notFound (n : Nat)
  deriving DecidableEq, Repr

/-- Embedding of `ExpenseService.handleExpenseDelete`: find the record by
(user, number), remove it permanently, and report post-deletion totals
anchored at the deleted record's date. -/
def handleExpenseDelete (messageBody : Str) (u : Str) (today : YMD) (db : DB) :
    DeleteResult × DB :=
  match parseDeleteCommand messageBody with
  | none => (.invalidFormat, db)
  | some n =>
    match findExpenseByNumber db u n with
    | none => (.notFound n, db)
    | some ex =>
      let es := removeFirst (fun e2 => e2.userId == u && e2.number == n) db.expenses
      let db2 := { db with expenses := es }
      let s := summarize db2 u today ex.date n ex.item (getUserCurrency db u) ex.price ex.date
      (.deleted s, db2)

/-- Match of the anchored `/^(\d+(?:[\.,]\d+)?)$/` used when the user
replies with a bare amount. -/
def onlyNumberMatch (s : Str) : Option ℚ :=
  let ds := s.takeWhile isDigitC
  if ds.isEmpty then none
  else
    match s.dropWhile isDigitC with
    | [] => some ((digitsVal ds : ℚ))
    | c :: r =>
      if c == '.' || c == ',' then
        let fs := r.takeWhile isDigitC
        if !fs.isEmpty && (r.dropWhile isDigitC).isEmpty then
          some ((digitsVal ds : ℚ) + (digitsVal fs : ℚ) / 10 ^ fs.length)
        else none
      else none

/-- Outcome of `finalizePendingImageExpense`. -/
inductive FinalizeResult where
  | finalized (s : Summary)
  | noPending
  | invalidAmount
  deriving DecidableEq, Repr

/-- Embedding of `ExpenseService.finalizePendingImageExpense`: resolve a
pending image draft with the user's follow-up text (full `item amount`
text, or a bare number combined with the draft's item), stamp the user's
currency, round the price, carry the draft's image reference, persist, and
clear the draft. -/
def finalizePendingImageExpense (userText : Str) (u : Str) (today : YMD) (db : DB) :
    FinalizeResult × DB :=
  match getPendingExpense db u with
  | none => (.noPending, db)
  | some pending =>
    let trimmed := jsTrim userText
    let data0 := extractExpenseData (isoDate today) trimmed
    let data1 :=
      match data0 with
      | some d => some d
      | none =>
        match onlyNumberMatch trimmed with
        | some pr =>
          some { item := (if pending.item.isEmpty then "Item".data else pending.item),
                 price := pr, currency := getUserCurrency db u, date := isoDate today }
        | none => none
    match data1 with
    | none => (.invalidAmount, db)
    | some d0 =>
      let d1 := { d0 with currency := getUserCurrency db u, price := round2 d0.price }
      let d2 :=
        { d1 with
          imageUrl := if pending.imageUrl.isSome then pending.imageUrl else d1.imageUrl,
          imageProvider := if pending.imageProvider.isSome then pending.imageProvider else d1.imageProvider,
          imageRef := if pending.imageRef.isSome then pending.imageRef else d1.imageRef }
      let r := addToMongo d2 u db
      let s := summarize r.2 u today d2.date r.1.number d2.item d2.currency d2.price d2.date
      (.finalized s, clearPendingExpense r.2 u)

/-!  Active-state message dispatch (`WhatsAppClient.handleMessage`,
src/src/services/WhatsAppClient.ts).  The chain of guards for a user in
state `active` is embedded as `activeDispatch`; each guard's regular
expression or string test is embedded as a boolean recognizer over the
lowercased body (`messageText = message.body?.toLowerCase() || ""`). -/

/-- The Excel-export trigger phrases, in source order. -/
def exportPhrases : List Str :=
  ["send expense info".data, "give excel file".data, "give my expense data".data,
   "expnese in excel".data, "expnese in sheet".data, "excel sheet".data,
   "google sheets".data, "monthly spend data".data, "full expense data".data,
   "all expense".data]

/-- `messageText.includes(p)` for any export phrase `p`. -/
def exportPhraseShape (t : Str) : Bool := exportPhrases.any (includesSub t)

/-- Match of `/^budget\s+\d+/i` on the lowercased body. -/
def budgetCmdShape (t : Str) : Bool :=
  startsWithS t ("budget".data) &&
    (let r := t.drop 6
     !(r.takeWhile isWsC).isEmpty && isDigitC ((r.dropWhile isWsC).headD 'x'))

/-- Match of `/^currency\s+\w+/i` on the lowercased body. -/
def currencyCmdShape (t : Str) : Bool :=
  startsWithS t ("currency".data) &&
    (let r := t.drop 8
     !(r.takeWhile isWsC).isEmpty && isWordC ((r.dropWhile isWsC).headD ' '))

/-- Character class `[\w\s]`. -/
def wordWsC (c : Char) : Bool := isWordC c || isWsC c

/-- Match of the alternative `edit\s+\d+` at the start of `r` (tail
unanchored). -/
def editAltMatch (r : Str) : Bool :=
  startsWithS r ("edit".data) &&
    (let r1 := r.drop 4
     !(r1.takeWhile isWsC).isEmpty && isDigitC ((r1.dropWhile isWsC).headD 'x'))

/-- Match of the alternative `[\w\s]+\s+\d+` at the start of `r` (tail
unanchored), with full backtracking: some digit position `m ≥ 2` preceded
by a whitespace character with everything before it in `[\w\s]`. -/
def altBMatch (r : Str) : Bool :=
  (List.range r.length).any fun m =>
    decide (2 ≤ m) &&
      ((r.get? m).elim false isDigitC) &&
      ((r.get? (m - 1)).elim false isWsC) &&
      (r.take m).all wordWsC

/-- Match of `/^#\d+\s+(edit\s+\d+|[\w\s]+\s+\d+)/` on the lowercased body,
quantifying over every backtracking split of `\d+` and `\s+`. -/
def editCmdShape (t : Str) : Bool :=
  match t with
  | '#' :: rest =>
    (List.range (rest.length + 1)).any fun i =>
      (List.range (rest.length + 1)).any fun j =>
        let d := rest.take i
        let w := (rest.drop i).take (j - i)
        let r := rest.drop j
        decide (1 ≤ i) && decide (i < j) && decide (j ≤ rest.length) &&
          d.all isDigitC && !w.isEmpty && w.all isWsC &&
          (editAltMatch r || altBMatch r)
  | _ => false

/-- Match of `/^#\d+\s+delete/i` on the lowercased body. -/
def deleteCmdShape (t : Str) : Bool :=
  match t with
  | '#' :: rest =>
    let d := rest.takeWhile isDigitC
    !d.isEmpty &&
      (let r1 := rest.dropWhile isDigitC
       !(r1.takeWhile isWsC).isEmpty &&
         startsWithS (r1.dropWhile isWsC) ("delete".data))
  | _ => false

/-- An inbound message as the dispatcher sees it: text body, whether it
carries media, and whether the downloaded media is an image. -/
structure InboundMsg where
  body : Str
  hasMedia : Bool
  mediaIsImage : Bool
  deriving DecidableEq, Repr

/-- The handler an active-state message is routed to. -/
inductive Handler where
  | excelExport
  | budgetUpdate
  | currencyUpdate
  | help
  | report
  | correction
  | expenseEdit
  | expenseDelete
  | imagePipeline
  | mediaError
  | textExpense
  | didNotUnderstand
  | silent
  deriving DecidableEq, Repr

/-- Embedding of the `handleMessage` guard chain for a user in state
`active`: export phrases, `budget`, `currency`, `help`, `report`,
`no it will be`, `#N` edit, `#N delete`, then media (image pipeline or the
images-only error), then free text with both a digit and a letter (Text
Parser) or the generic prompt; an empty/whitespace-only non-media body
gets no reply at all. -/
def activeDispatch (m : InboundMsg) : Handler :=
  let messageText := jsToLower m.body
  if exportPhraseShape messageText then .excelExport
  else if budgetCmdShape messageText then .budgetUpdate
  else if currencyCmdShape messageText then .currencyUpdate
  else if messageText == "help".data then .help
  else if messageText == "report".data then .report
  else if startsWithS messageText ("no it will be".data) then .correction
  else if editCmdShape messageText then .expenseEdit
  else if deleteCmdShape messageText then .expenseDelete
  else if m.hasMedia then (if m.mediaIsImage then .imagePipeline else .mediaError)
  else if !(jsTrim m.body).isEmpty then
    (if (jsTrim m.body).any isDigitC && (jsTrim m.body).any isAlphaC then
      .textExpense
    else .didNotUnderstand)
  else .silent

/-- The spec's ordered recognizer list (§4.5 item by item): a predicate and
the handler it selects.  This list follows the spec's words, to be compared
with `activeDispatch`, which follows the code. -/
def specRecognizers : List ((InboundMsg → Bool) × (InboundMsg → Handler)) :=
  [(fun m => exportPhraseShape (jsToLower m.body), fun _ => .excelExport),
   (fun m => budgetCmdShape (jsToLower m.body), fun _ => .budgetUpdate),
   (fun m => currencyCmdShape (jsToLower m.body), fun _ => .currencyUpdate),
   (fun m => jsToLower m.body == "help".data, fun _ => .help),
   (fun m => jsToLower m.body == "report".data, fun _ => .report),
   (fun m => startsWithS (jsToLower m.body) ("no it will be".data), fun _ => .correction),
   (fun m => editCmdShape (jsToLower m.body), fun _ => .expenseEdit),
   (fun m => deleteCmdShape (jsToLower m.body), fun _ => .expenseDelete),
   (fun m => m.hasMedia, fun m => if m.mediaIsImage then .imagePipeline else .mediaError),
   (fun m => (jsTrim m.body).any isDigitC && (jsTrim m.body).any isAlphaC,
    fun _ => .textExpense)]

/-- First-match dispatch over the spec's recognizer list; anything else
falls to the generic "didn't understand" prompt (spec §4.5 item 10). -/
def specDispatch (m : InboundMsg) : Handler :=
  match specRecognizers.findSome? (fun pr => if pr.1 m then some (pr.2 m) else none) with
  | some h => h
  | none => .didNotUnderstand

/-- An abstract per-user store operation: an add (any of the add/resolve
paths, all of which persist through `addToMongo`) or a delete-by-number
(the removal performed by `handleExpenseDelete` on a found record). -/
inductive UserOp where
  | add (e : ExpenseData)
  | del (n : Nat)
  deriving DecidableEq, Repr

/-- The number of add operations in a list of operations. -/
def countAdds : List UserOp → Nat
  | [] => 0
  | (UserOp.add _) :: ops => countAdds ops + 1
  | _ :: ops => countAdds ops

/-- Run a list of operations for user `u`, returning the final database and
the sequence numbers assigned to the adds, in issuance order. -/
def runOps (u : Str) : DB → List UserOp → DB × List Nat
  | db, [] => (db, [])
  | db, (UserOp.add e) :: ops =>
    let r := addToMongo e u db
    let rest := runOps u r.2 ops
    (rest.1, r.1.number :: rest.2)
  | db, (UserOp.del n) :: ops =>
    let es := removeFirst (fun e2 => e2.userId == u && e2.number == n) db.expenses
    runOps u { db with expenses := es } ops

/-!  General lemmas about the character classes and list scans  -/

theorem isDigitC_toNat {c : Char} (h : isDigitC c = true) :
    48 ≤ c.toNat ∧ c.toNat ≤ 57 := by
  simp only [isDigitC, Bool.and_eq_true, decide_eq_true_eq] at h
  exact ⟨h.1, h.2⟩

theorem toLower_of_digit {c : Char} (h : isDigitC c = true) : c.toLower = c := by
  have hn := isDigitC_toNat h
  unfold Char.toLower
  rw [if_neg]
  omega

theorem notWs_of_digit {c : Char} (h : isDigitC c = true) : isWsC c = false := by
  by_contra hw
  rw [Bool.not_eq_false] at hw
  simp only [isWsC, Bool.or_eq_true, decide_eq_true_eq] at hw
  obtain ((((h1 | h1) | h1) | h1) | h1) | h1 := hw <;>
  · subst h1
    exact absurd h (by decide)

theorem notAlpha_of_digit {c : Char} (h : isDigitC c = true) : isAlphaC c = false := by
  have hn := isDigitC_toNat h
  by_contra hA
  rw [Bool.not_eq_false] at hA
  simp only [isAlphaC, Bool.or_eq_true, Bool.and_eq_true, decide_eq_true_eq] at hA
  rcases hA with ⟨h1, h2⟩ | ⟨h1, h2⟩
  · have h1n : (97 : Nat) ≤ c.toNat := h1
    omega
  · have h1n : (65 : Nat) ≤ c.toNat := h1
    omega

theorem notUpper_of_digit {c : Char} (h : isDigitC c = true) : isUpperAZ c = false := by
  have hn := isDigitC_toNat h
  by_contra hA
  rw [Bool.not_eq_false] at hA
  simp only [isUpperAZ, Bool.and_eq_true, decide_eq_true_eq] at hA
  have h1n : (65 : Nat) ≤ c.toNat := hA.1
  omega

theorem all_takeWhile_self {p : Char → Bool} {l : Str}
    (h : ∀ c ∈ l, p c = true) : l.takeWhile p = l := by
  induction l with
  | nil => rfl
  | cons c cs ih =>
    have h1 : p c = true := h c (by simp)
    have h2 := ih (fun c2 hc2 => h c2 (by simp [hc2]))
    simp [List.takeWhile_cons, h1, h2]

theorem all_dropWhile_nil {p : Char → Bool} {l : Str}
    (h : ∀ c ∈ l, p c = true) : l.dropWhile p = [] := by
  induction l with
  | nil => rfl
  | cons c cs ih =>
    have h1 : p c = true := h c (by simp)
    have h2 := ih (fun c2 hc2 => h c2 (by simp [hc2]))
    simp [List.dropWhile_cons, h1, h2]

theorem allf_takeWhile_nil {p : Char → Bool} {l : Str}
    (h : ∀ c ∈ l, p c = false) : l.takeWhile p = [] := by
  cases l with
  | nil => rfl
  | cons c cs => simp [List.takeWhile_cons, h c (by simp)]

theorem allf_dropWhile_self {p : Char → Bool} {l : Str}
    (h : ∀ c ∈ l, p c = false) : l.dropWhile p = l := by
  cases l with
  | nil => rfl
  | cons c cs => simp [List.dropWhile_cons, h c (by simp)]

theorem jsToLower_of_digits {l : Str} (h : ∀ c ∈ l, isDigitC c = true) :
    jsToLower l = l := by
  induction l with
  | nil => rfl
  | cons c cs ih =>
    simp only [jsToLower, List.map_cons]
    rw [toLower_of_digit (h c (by simp))]
    have := ih (fun c2 hc2 => h c2 (by simp [hc2]))
    simp only [jsToLower] at this
    rw [this]

theorem jsTrim_of_no_ws {l : Str} (h : ∀ c ∈ l, isWsC c = false) :
    jsTrim l = l := by
  unfold jsTrim
  rw [allf_dropWhile_self h,
      allf_dropWhile_self (fun c hc => h c (List.mem_reverse.mp hc)),
      List.reverse_reverse]

theorem includesSub_subset {hay needle : Str} (h : includesSub hay needle = true) :
    ∀ c ∈ needle, c ∈ hay := by
  induction hay with
  | nil =>
    simp only [includesSub, List.isEmpty_iff] at h
    subst h
    intro c hc
    exact absurd hc (by simp)
  | cons x t ih =>
    simp only [includesSub, Bool.or_eq_true] at h
    intro c hc
    rcases h with h | h
    · exact (List.isPrefixOf_iff_prefix.mp h).subset hc
    · exact List.mem_cons_of_mem x (ih h c hc)

theorem isoScanAux_of_no_upper {l : Str} (h : ∀ c ∈ l, isUpperAZ c = false) :
    ∀ p, isoScanAux p l = none := by
  induction l with
  | nil => intro p; rfl
  | cons c cs ih =>
    intro p
    have hc : isUpperAZ c = false := h c (by simp)
    have ih2 := ih (fun c2 hc2 => h c2 (by simp [hc2]))
    cases cs with
    | nil => rfl
    | cons c2 cs2 =>
      cases cs2 with
      | nil => rfl
      | cons c3 rest =>
        simp only [isoScanAux, hc, Bool.and_false, Bool.false_and,
          Bool.and_self, Bool.false_eq_true, if_false]
        exact ih2 (isWordC c)

/-- `detectCurrency` finds nothing in a text all of whose characters are
decimal digits: no alias matches exactly or as a substring (every alias
contains a letter) and the ISO fallback needs uppercase letters. -/
theorem detectCurrency_of_digits {l : Str} (h : ∀ c ∈ l, isDigitC c = true) :
    detectCurrency l = none := by
  have hkeys : ∀ kv ∈ currencyMap, kv.1.any isAlphaC = true := by decide
  have hnorm : jsTrim (jsToLower l) = l := by
    rw [jsToLower_of_digits h]
    exact jsTrim_of_no_ws (fun c hc => notWs_of_digit (h c hc))
  have hnoalpha : ∀ c ∈ l, isAlphaC c = false :=
    fun c hc => notAlpha_of_digit (h c hc)
  have hfind : currencyMap.find? (fun kv => kv.1 == l) = none := by
    rw [List.find?_eq_none]
    intro kv hkv
    simp only [beq_iff_eq]
    intro heq
    obtain ⟨c, hc, hca⟩ := List.any_eq_true.mp (hkeys kv hkv)
    rw [heq] at hc
    rw [hnoalpha c hc] at hca
    exact absurd hca (by simp)
  have hsub : currencyMap.findSome?
      (fun kv => if includesSub l kv.1 then some kv.2 else none) = none := by
    rw [List.findSome?_eq_none_iff]
    intro kv hkv
    rw [if_neg]
    intro hinc
    obtain ⟨c, hc, hca⟩ := List.any_eq_true.mp (hkeys kv hkv)
    have := includesSub_subset hinc c hc
    rw [hnoalpha c this] at hca
    exact absurd hca (by simp)
  have hiso : isoScan l = none :=
    isoScanAux_of_no_upper (fun c hc => notUpper_of_digit (h c hc)) false
  simp only [detectCurrency, hnorm, hfind, hsub, hiso]

/-!  Structural lemmas about the database operations  -/

theorem getNextExpenseNumber_expenses (db : DB) (u : Str) :
    (getNextExpenseNumber db u).2.expenses = db.expenses := by
  unfold getNextExpenseNumber
  rcases h : List.find? (fun kv => kv.1 == counterKey u) db.counters with _ | kv <;>
    simp [h]

theorem getNextExpenseNumber_users (db : DB) (u : Str) :
    (getNextExpenseNumber db u).2.users = db.users := by
  unfold getNextExpenseNumber
  rcases h : List.find? (fun kv => kv.1 == counterKey u) db.counters with _ | kv <;>
    simp [h]

theorem getNextExpenseNumber_budgets (db : DB) (u : Str) :
    (getNextExpenseNumber db u).2.budgets = db.budgets := by
  unfold getNextExpenseNumber
  rcases h : List.find? (fun kv => kv.1 == counterKey u) db.counters with _ | kv <;>
    simp [h]

theorem addToMongo_doc (e : ExpenseData) (u : Str) (db : DB) :
    (addToMongo e u db).1 =
      { userId := u, item := e.item, price := e.price, currency := e.currency,
        date := e.date, number := (getNextExpenseNumber db u).1 } := rfl

theorem addToMongo_expenses (e : ExpenseData) (u : Str) (db : DB) :
    (addToMongo e u db).2.expenses = db.expenses ++ [(addToMongo e u db).1] := by
  unfold addToMongo
  simp [getNextExpenseNumber_expenses]

theorem addToMongo_users (e : ExpenseData) (u : Str) (db : DB) :
    (addToMongo e u db).2.users = db.users := by
  unfold addToMongo
  simp [getNextExpenseNumber_users]

theorem addToMongo_budgets (e : ExpenseData) (u : Str) (db : DB) :
    (addToMongo e u db).2.budgets = db.budgets := by
  unfold addToMongo
  simp [getNextExpenseNumber_budgets]

/-!  Claims  -/

/-- Claim C9: for every input string consisting solely of a single numeric
token (all decimal digits, e.g. "120"), the text parser does not fail: it
returns a candidate with that number as the price and the literal
placeholder item name `Item` substituted for the missing item text (and,
with no currency mention possible, the parser's `USD` fallback). -/
theorem C9_bare_number_parses (today ds : Str)
    (hne : ds ≠ []) (hdig : ∀ c ∈ ds, isDigitC c = true) :
    extractExpenseData today ds =
      some { item := "Item".data, price := (digitsVal ds : ℚ),
             currency := "USD".data, date := today } := by
  have hnw : ∀ c ∈ ds, isWsC c = false := fun c hc => notWs_of_digit (hdig c hc)
  have htrim : jsTrim ds = ds := jsTrim_of_no_ws hnw
  have hdigrev : ∀ c ∈ ds.reverse, isDigitC c = true :=
    fun c hc => hdig c (List.mem_reverse.mp hc)
  have hrevne : ds.reverse.isEmpty = false := by
    simp [List.isEmpty_iff, hne]
  have hsplit : splitLastNumber ds = some ([], ds, []) := by
    have h1 : ds.reverse.takeWhile (fun c => !isDigitC c) = [] :=
      allf_takeWhile_nil (fun c hc => by simp [hdigrev c hc])
    have h2 : ds.reverse.dropWhile (fun c => !isDigitC c) = ds.reverse :=
      allf_dropWhile_self (fun c hc => by simp [hdigrev c hc])
    have h3 : ds.reverse.takeWhile isDigitC = ds.reverse := all_takeWhile_self hdigrev
    have h4 : ds.reverse.dropWhile isDigitC = [] := all_dropWhile_nil hdigrev
    simp only [splitLastNumber, h1, h2, h3, h4, List.reverse_reverse, hrevne,
      Bool.false_eq_true, if_false, List.reverse_nil]
  have htok : tokenValQ ds = (digitsVal ds : ℚ) := by
    have hip : ds.takeWhile isDigitC = ds := all_takeWhile_self hdig
    have hrest : ds.dropWhile isDigitC = [] := all_dropWhile_nil hdig
    simp only [tokenValQ, hip, hrest]
  have hcur := detectCurrency_of_digits hdig
  have hiempty : ds.isEmpty = false := by simp [List.isEmpty_iff, hne]
  have hItem : jsTrim (collapseWs ("Item".data)) = "Item".data := by decide
  simp only [extractExpenseData, htrim, hiempty, Bool.false_eq_true, if_false,
    hsplit, htok, hcur, hItem, Option.getD_none]
  have hx : jsTrim (collapseWs
      (if (!List.isEmpty (jsTrim ([] : Str))) = true then jsTrim ([] : Str)
       else if (!List.isEmpty (jsTrim ([] : Str))) = true then jsTrim ([] : Str)
       else ['I', 't', 'e', 'm'])) = ['I', 't', 'e', 'm'] := by decide
  rw [hx]

/-- Witness for C9 at the concrete input "120". -/
theorem C9_witness :
    extractExpenseData ("2024-03-07".data) ("120".data) =
      some { item := "Item".data, price := (120 : ℚ), currency := "USD".data,
             date := "2024-03-07".data } := by
  have h := C9_bare_number_parses ("2024-03-07".data) ("120".data)
    (by decide) (by decide)
  have hn : digitsVal ("120".data) = 120 := by decide
  rw [hn] at h
  simpa using h

/-- Counterexample to claim C5 as stated: on "Coffee 120" the currency
detection finds nothing, yet the parser's candidate carries the literal
`USD`, not a null currency — `extractExpenseData` computes
`detected ?? 'USD'`. -/
theorem C5_counterexample :
    detectCurrency (jsTrim ("Coffee 120".data)) = none ∧
    (extractExpenseData ("2024-03-07".data) ("Coffee 120".data)).map
        (fun e => e.currency) = some ("USD".data) := by
  constructor
  · decide
  · decide

/-- Claim C5 as amended: when currency detection over the full input finds
no currency, the parser returns a candidate whose currency field is the
literal fallback `USD` (not null); it is the caller that then overwrites
the currency with the user's stored preference before persisting, so the
detected-or-fallback value never reaches storage in the canonical add
flow. -/
theorem C5_amended :
    (∀ (today text : Str) (e : ExpenseData),
      detectCurrency (jsTrim text) = none →
      extractExpenseData today text = some e →
      e.currency = "USD".data) ∧
    (∀ (text u : Str) (ty : YMD) (db : DB) (s : Summary) (db2 : DB),
      processExpenseMessage text u ty db = (.added s, db2) →
      ∃ doc : ExpenseDoc, db2.expenses = db.expenses ++ [doc] ∧
        doc.currency = getUserCurrency db u) := by
  constructor
  · intro today text e hdet hres
    unfold extractExpenseData at hres
    by_cases h1 : (jsTrim text).isEmpty
    · simp [h1] at hres
    · simp only [h1, Bool.false_eq_true, if_false] at hres
      rcases h2 : splitLastNumber (jsTrim text) with _ | ⟨b, tok, a⟩
      · rw [h2] at hres
        simp at hres
      · rw [h2] at hres
        simp only [Option.some_inj] at hres
        rw [← hres]
        simp [hdet]
  · intro text u ty db s db2 h
    unfold processExpenseMessage at h
    rcases hx : extractExpenseData (isoDate ty) text with _ | e0
    · rw [hx] at h
      simp at h
    · rw [hx] at h
      simp only [Prod.mk.injEq] at h
      refine ⟨(addToMongo
          { e0 with currency := getUserCurrency db u, price := round2 e0.price }
          u db).1, ?_, ?_⟩
      · rw [← h.2]
        exact addToMongo_expenses _ _ _
      · rw [addToMongo_doc]

/-- Witness for the amended C5 at the concrete input "Coffee 120". -/
theorem C5_amended_witness :
    ∃ e : ExpenseData,
      extractExpenseData ("2024-03-07".data) ("Coffee 120".data) = some e ∧
      e.currency = "USD".data := by
  refine ⟨⟨"Coffee".data, 120, "USD".data, "2024-03-07".data, none, none, none⟩,
    by decide, ?_⟩
  exact C5_amended.1 ("2024-03-07".data) ("Coffee 120".data) _ (by decide) (by decide)

/-!  Sequence-number machinery for claim C3  -/

theorem find?_replaceFirst {α : Type} (p : α → Bool) (f : α → α) (l : List α)
    (hp : ∀ x, p x = true → p (f x) = true) :
    (replaceFirst p f l).find? p = (l.find? p).map f := by
  induction l with
  | nil => rfl
  | cons x xs ih =>
    by_cases hx : p x = true
    · simp [replaceFirst, hx, List.find?_cons, hp x hx]
    · rw [Bool.not_eq_true] at hx
      simp [replaceFirst, hx, List.find?_cons, ih]

theorem getNextExpenseNumber_val (db : DB) (u : Str) :
    (getNextExpenseNumber db u).1 = counterVal db u + 1 := by
  unfold getNextExpenseNumber counterVal
  rcases h : List.find? (fun kv => kv.1 == counterKey u) db.counters with _ | kv <;>
    simp [h]

theorem getNextExpenseNumber_counterVal (db : DB) (u : Str) :
    counterVal (getNextExpenseNumber db u).2 u = counterVal db u + 1 := by
  unfold getNextExpenseNumber
  rcases h : List.find? (fun kv => kv.1 == counterKey u) db.counters with _ | kv
  · simp only [counterVal, h]
    rw [List.find?_append, h]
    simp
  · simp only [counterVal, h]
    have hrepl := find?_replaceFirst (fun kv2 => kv2.1 == counterKey u)
      (fun kv2 => (kv2.1, kv2.2 + 1)) db.counters (fun x hx => hx)
    rw [hrepl, h]
    simp

theorem addToMongo_number (e : ExpenseData) (u : Str) (db : DB) :
    (addToMongo e u db).1.number = counterVal db u + 1 := by
  rw [addToMongo_doc]
  exact getNextExpenseNumber_val db u

theorem addToMongo_counterVal (e : ExpenseData) (u : Str) (db : DB) :
    counterVal (addToMongo e u db).2 u = counterVal db u + 1 := by
  unfold addToMongo
  exact getNextExpenseNumber_counterVal db u

theorem runOps_trace (u : Str) (ops : List UserOp) :
    ∀ db : DB, (runOps u db ops).2 =
      List.range' (counterVal db u + 1) (countAdds ops) := by
  induction ops with
  | nil => intro db; rfl
  | cons op ops ih =>
    intro db
    cases op with
    | add e =>
      simp only [runOps, countAdds, addToMongo_number, ih (addToMongo e u db).2,
        addToMongo_counterVal]
      rw [List.range'_succ]
    | del n =>
      simp only [runOps, countAdds]
      exact ih _

/-- Claim C3: every add assigns the atomically incremented per-user
counter value, so from a fresh counter any interleaving of adds and
deletes issues the numbers 1..N (N the number of adds) in order — deleted
numbers are never reissued since later assignments are strictly larger;
and delete-by-number removes exactly the first matching record while
leaving every counter untouched. -/
theorem C3_sequence_numbers :
    (∀ (u : Str) (ops : List UserOp) (db0 : DB), counterVal db0 u = 0 →
      (runOps u db0 ops).2 = List.range' 1 (countAdds ops)) ∧
    (∀ (body u : Str) (ty : YMD) (db : DB),
      (handleExpenseDelete body u ty db).2.counters = db.counters) ∧
    (∀ (body u : Str) (ty : YMD) (db : DB) (s : Summary) (db2 : DB) (n : Nat),
      parseDeleteCommand body = some n →
      handleExpenseDelete body u ty db = (.deleted s, db2) →
      db2.expenses =
        removeFirst (fun e2 => e2.userId == u && e2.number == n) db.expenses) := by
  refine ⟨?_, ?_, ?_⟩
  · intro u ops db0 h0
    rw [runOps_trace, h0]
  · intro body u ty db
    unfold handleExpenseDelete
    rcases h1 : parseDeleteCommand body with _ | n
    · rfl
    · rcases h2 : findExpenseByNumber db u n with _ | ex <;> simp [h1, h2]
  · intro body u ty db s db2 n h1 h2
    unfold handleExpenseDelete at h2
    rw [h1] at h2
    dsimp only at h2
    rcases h3 : findExpenseByNumber db u n with _ | ex
    · rw [h3] at h2
      simp at h2
    · rw [h3] at h2
      simp only [Prod.mk.injEq] at h2
      rw [← h2.2]

/-- Witness for C3: from a fresh user, add, add, delete #1, add issues the
numbers 1, 2, 3 — number 1 is not reissued after its deletion. -/
theorem C3_witness :
    (runOps ("15550001@c.us".data) ⟨[], [], [], []⟩
      [UserOp.add ⟨"Tea".data, 10, "BDT".data, "2024-03-07".data, none, none, none⟩,
       UserOp.add ⟨"Coffee".data, 12, "BDT".data, "2024-03-07".data, none, none, none⟩,
       UserOp.del 1,
       UserOp.add ⟨"Bun".data, 5, "BDT".data, "2024-03-07".data, none, none, none⟩]).2 =
      [1, 2, 3] := by
  rw [C3_sequence_numbers.1 ("15550001@c.us".data) _ ⟨[], [], [], []⟩ rfl]
  rfl

/-!  Lemmas about pending-draft state for claims C2 and C10  -/

theorem clearPendingExpense_expenses (db : DB) (u : Str) :
    (clearPendingExpense db u).expenses = db.expenses := rfl

theorem findUser_clearPending (db : DB) (u : Str) :
    findUser (clearPendingExpense db u) u =
      (findUser db u).map (fun d => { d with pendingExpense := none, state := .active }) :=
  find?_replaceFirst _ _ _ (fun _ hx => hx)

theorem getPendingExpense_clearPending (db : DB) (u : Str) :
    getPendingExpense (clearPendingExpense db u) u = none := by
  unfold getPendingExpense
  rw [findUser_clearPending]
  rcases findUser db u with _ | d <;> rfl

theorem getUserState_clearPending_of_exists (db : DB) (u : Str)
    (h : (findUser db u).isSome = true) :
    getUserState (clearPendingExpense db u) u = .active := by
  unfold getUserState
  rw [findUser_clearPending]
  rcases hf : findUser db u with _ | d
  · rw [hf] at h
    simp at h
  · rfl

theorem findUser_isSome_of_state (db : DB) (u : Str) (s : UserState)
    (hs : s ≠ .new) (h : getUserState db u = s) : (findUser db u).isSome = true := by
  unfold getUserState at h
  rcases hf : findUser db u with _ | d
  · rw [hf] at h
    exact absurd h.symm hs
  · rfl

/-- Claim C2: for a user in `awaiting_ocr_confirmation` with a stored
pending draft, a reply normalizing to yes/y persists the draft with its
currency re-stamped to the user's current preferred currency (next
sequence number assigned), clears the draft and activates the user; no/n
discards the draft (persisting nothing) and activates the user; any other
reply is unhandled and leaves the database — draft and state included —
untouched. -/
theorem C2_ocr_confirmation (db : DB) (u resp : Str) (p : ExpenseData) (ty : YMD)
    (hstate : getUserState db u = .awaiting_ocr_confirmation)
    (hpending : getPendingExpense db u = some p) :
    ((jsTrim (jsToLower resp) = "yes".data ∨ jsTrim (jsToLower resp) = "y".data) →
      (handleOCRConfirmation resp u ty db).1.handled = true ∧
      (handleOCRConfirmation resp u ty db).2.expenses = db.expenses ++
        [{ userId := u, item := p.item, price := p.price,
           currency := getUserCurrency db u, date := p.date,
           number := counterVal db u + 1 }] ∧
      getPendingExpense (handleOCRConfirmation resp u ty db).2 u = none ∧
      getUserState (handleOCRConfirmation resp u ty db).2 u = .active) ∧
    ((jsTrim (jsToLower resp) = "no".data ∨ jsTrim (jsToLower resp) = "n".data) →
      (handleOCRConfirmation resp u ty db).1.handled = true ∧
      (handleOCRConfirmation resp u ty db).1.saved = none ∧
      (handleOCRConfirmation resp u ty db).2.expenses = db.expenses ∧
      getPendingExpense (handleOCRConfirmation resp u ty db).2 u = none ∧
      getUserState (handleOCRConfirmation resp u ty db).2 u = .active) ∧
    ((jsTrim (jsToLower resp) ≠ "yes".data ∧ jsTrim (jsToLower resp) ≠ "y".data ∧
      jsTrim (jsToLower resp) ≠ "no".data ∧ jsTrim (jsToLower resp) ≠ "n".data) →
      (handleOCRConfirmation resp u ty db).1.handled = false ∧
      (handleOCRConfirmation resp u ty db).2 = db) := by
  have hexists : (findUser db u).isSome = true :=
    findUser_isSome_of_state db u _ (by simp) hstate
  refine ⟨?_, ?_, ?_⟩
  · intro hyes
    have hcond : (jsTrim (jsToLower resp) == "yes".data ||
        jsTrim (jsToLower resp) == "y".data) = true := by
      rcases hyes with h | h <;> simp [h]
    unfold handleOCRConfirmation
    dsimp only
    rw [hcond, if_pos rfl, hpending]
    dsimp only
    have hadd := addToMongo_expenses { p with currency := getUserCurrency db u } u db
    have hdoc := addToMongo_doc { p with currency := getUserCurrency db u } u db
    have hnum := getNextExpenseNumber_val db u
    have husers := addToMongo_users { p with currency := getUserCurrency db u } u db
    refine ⟨rfl, ?_, ?_, ?_⟩
    · rw [clearPendingExpense_expenses, hadd, hdoc, hnum]
    · exact getPendingExpense_clearPending _ u
    · refine getUserState_clearPending_of_exists _ u ?_
      unfold findUser
      rw [husers]
      exact hexists
  · intro hno
    have hcond : (jsTrim (jsToLower resp) == "yes".data ||
        jsTrim (jsToLower resp) == "y".data) = false := by
      rcases hno with h | h <;> simp [h]
    have hcond2 : (jsTrim (jsToLower resp) == "no".data ||
        jsTrim (jsToLower resp) == "n".data) = true := by
      rcases hno with h | h <;> simp [h]
    unfold handleOCRConfirmation
    dsimp only
    rw [hcond, hcond2]
    rw [if_neg (by simp), if_pos rfl]
    exact ⟨rfl, rfl, rfl, getPendingExpense_clearPending db u,
      getUserState_clearPending_of_exists db u hexists⟩
  · intro hother
    have hcond : (jsTrim (jsToLower resp) == "yes".data ||
        jsTrim (jsToLower resp) == "y".data) = false := by
      simp [hother.1, hother.2.1]
    have hcond2 : (jsTrim (jsToLower resp) == "no".data ||
        jsTrim (jsToLower resp) == "n".data) = false := by
      simp [hother.2.2.1, hother.2.2.2]
    unfold handleOCRConfirmation
    dsimp only
    rw [hcond, hcond2]
    rw [if_neg (by simp), if_neg (by simp)]
    exact ⟨rfl, rfl⟩

/-- Witness for C2: a user awaiting OCR confirmation with a stored draft
replies " YES " — the draft is persisted as expense number 1 with the
user's stored currency EUR, the draft is cleared and the state is active. -/
theorem C2_witness :
    (handleOCRConfirmation (" YES ".data) ("15550001@c.us".data) ⟨2024, 3, 7⟩
      ⟨[{ userId := "15550001@c.us".data, state := .awaiting_ocr_confirmation,
          currency := some ("EUR".data),
          pendingExpense := some ⟨"Lunch".data, 10, "USD".data, "2024-03-07".data,
            none, none, none⟩,
          pendingCurrency := none }], [], [], []⟩).1.handled = true ∧
    (handleOCRConfirmation (" YES ".data) ("15550001@c.us".data) ⟨2024, 3, 7⟩
      ⟨[{ userId := "15550001@c.us".data, state := .awaiting_ocr_confirmation,
          currency := some ("EUR".data),
          pendingExpense := some ⟨"Lunch".data, 10, "USD".data, "2024-03-07".data,
            none, none, none⟩,
          pendingCurrency := none }], [], [], []⟩).2.expenses =
      [{ userId := "15550001@c.us".data, item := "Lunch".data, price := 10,
         currency := "EUR".data, date := "2024-03-07".data, number := 1 }] := by
  have h := C2_ocr_confirmation
    ⟨[{ userId := "15550001@c.us".data, state := .awaiting_ocr_confirmation,
        currency := some ("EUR".data),
        pendingExpense := some ⟨"Lunch".data, 10, "USD".data, "2024-03-07".data,
          none, none, none⟩,
        pendingCurrency := none }], [], [], []⟩
    ("15550001@c.us".data) (" YES ".data)
    ⟨"Lunch".data, 10, "USD".data, "2024-03-07".data, none, none, none⟩
    ⟨2024, 3, 7⟩ rfl rfl
  have hy := h.1 (Or.inl (by decide))
  exact ⟨hy.1, by rw [hy.2.1]; rfl⟩

/-- Claim C10: in `awaiting_ocr_confirmation` with no stored draft, a
yes/y reply creates no expense and changes nothing (the user is only
re-prompted, state still `awaiting_ocr_confirmation`), while a no/n reply
still resets the state to `active`. -/
theorem C10_confirmation_without_draft (db : DB) (u resp : Str) (ty : YMD)
    (hstate : getUserState db u = .awaiting_ocr_confirmation)
    (hpending : getPendingExpense db u = none) :
    ((jsTrim (jsToLower resp) = "yes".data ∨ jsTrim (jsToLower resp) = "y".data) →
      (handleOCRConfirmation resp u ty db).1.handled = false ∧
      (handleOCRConfirmation resp u ty db).2 = db ∧
      getUserState (handleOCRConfirmation resp u ty db).2 u =
        .awaiting_ocr_confirmation) ∧
    ((jsTrim (jsToLower resp) = "no".data ∨ jsTrim (jsToLower resp) = "n".data) →
      (handleOCRConfirmation resp u ty db).1.handled = true ∧
      (handleOCRConfirmation resp u ty db).2.expenses = db.expenses ∧
      getUserState (handleOCRConfirmation resp u ty db).2 u = .active) := by
  have hexists : (findUser db u).isSome = true :=
    findUser_isSome_of_state db u _ (by simp) hstate
  constructor
  · intro hyes
    have hcond : (jsTrim (jsToLower resp) == "yes".data ||
        jsTrim (jsToLower resp) == "y".data) = true := by
      rcases hyes with h | h <;> simp [h]
    unfold handleOCRConfirmation
    dsimp only
    rw [hcond, if_pos rfl, hpending]
    exact ⟨rfl, rfl, hstate⟩
  · intro hno
    have hcond : (jsTrim (jsToLower resp) == "yes".data ||
        jsTrim (jsToLower resp) == "y".data) = false := by
      rcases hno with h | h <;> simp [h]
    have hcond2 : (jsTrim (jsToLower resp) == "no".data ||
        jsTrim (jsToLower resp) == "n".data) = true := by
      rcases hno with h | h <;> simp [h]
    unfold handleOCRConfirmation
    dsimp only
    rw [hcond, hcond2]
    rw [if_neg (by simp), if_pos rfl]
    exact ⟨rfl, rfl, getUserState_clearPending_of_exists db u hexists⟩

/-- Witness for C10: with no draft stored, "yes" changes nothing and "no"
reactivates the user. -/
theorem C10_witness :
    (handleOCRConfirmation ("yes".data) ("15550001@c.us".data) ⟨2024, 3, 7⟩
      ⟨[{ userId := "15550001@c.us".data, state := .awaiting_ocr_confirmation,
          currency := some ("EUR".data), pendingExpense := none,
          pendingCurrency := none }], [], [], []⟩).1.handled = false ∧
    getUserState (handleOCRConfirmation ("no".data) ("15550001@c.us".data) ⟨2024, 3, 7⟩
      ⟨[{ userId := "15550001@c.us".data, state := .awaiting_ocr_confirmation,
          currency := some ("EUR".data), pendingExpense := none,
          pendingCurrency := none }], [], [], []⟩).2
      ("15550001@c.us".data) = .active := by
  constructor
  · exact (C10_confirmation_without_draft
      ⟨[{ userId := "15550001@c.us".data, state := .awaiting_ocr_confirmation,
          currency := some ("EUR".data), pendingExpense := none,
          pendingCurrency := none }], [], [], []⟩
      ("15550001@c.us".data) ("yes".data) ⟨2024, 3, 7⟩ rfl rfl).1
      (Or.inl (by decide)) |>.1
  · exact (C10_confirmation_without_draft
      ⟨[{ userId := "15550001@c.us".data, state := .awaiting_ocr_confirmation,
          currency := some ("EUR".data), pendingExpense := none,
          pendingCurrency := none }], [], [], []⟩
      ("15550001@c.us".data) ("no".data) ⟨2024, 3, 7⟩ rfl rfl).2
      (Or.inl (by decide)) |>.2.2

/-!  Lemmas about upserts on the user collection, for claim C1  -/

theorem userUpsert_expenses (db : DB) (u : Str) (f : UserDoc → UserDoc)
    (mk : UserDoc) : (userUpsert db u f mk).expenses = db.expenses := by
  unfold userUpsert
  split <;> rfl

theorem findUser_userUpsert (db : DB) (u : Str) (f : UserDoc → UserDoc)
    (mk : UserDoc)
    (hf : ∀ d, (d.userId == u) = true → ((f d).userId == u) = true)
    (hmk : (mk.userId == u) = true) :
    findUser (userUpsert db u f mk) u = some (((findUser db u).map f).getD mk) := by
  unfold userUpsert findUser
  by_cases hany : db.users.any (fun d => d.userId == u) = true
  · rw [if_pos hany]
    rw [find?_replaceFirst _ _ _ hf]
    obtain ⟨x, hx, hpx⟩ := List.any_eq_true.mp hany
    rcases hsome : db.users.find? (fun d => d.userId == u) with _ | d
    · rw [List.find?_eq_none] at hsome
      exact absurd hpx (hsome x hx)
    · rw [hsome]
      rfl
  · rw [if_neg hany]
    rw [List.find?_append]
    have hnone : db.users.find? (fun d => d.userId == u) = none := by
      rw [List.find?_eq_none]
      intro x hx
      simp only [List.any_eq_true, not_exists] at hany
      intro hpx
      exact hany x ⟨hx, hpx⟩
    rw [hnone]
    simp [List.find?_cons, hmk]

theorem getPendingExpense_store (db : DB) (u : Str) (p : ExpenseData) :
    getPendingExpense (storePendingExpense db u p) u = some p := by
  unfold getPendingExpense storePendingExpense
  have h := findUser_userUpsert db u
    (fun d => { d with pendingExpense := some p, state := .awaiting_ocr_confirmation })
    { userId := u, pendingExpense := some p, state := .awaiting_ocr_confirmation }
    (fun d hd => hd) (by simp)
  rw [h]
  rcases findUser db u with _ | d <;> rfl

theorem getUserState_store (db : DB) (u : Str) (p : ExpenseData) :
    getUserState (storePendingExpense db u p) u = .awaiting_ocr_confirmation := by
  unfold getUserState storePendingExpense
  have h := findUser_userUpsert db u
    (fun d => { d with pendingExpense := some p, state := .awaiting_ocr_confirmation })
    { userId := u, pendingExpense := some p, state := .awaiting_ocr_confirmation }
    (fun d hd => hd) (by simp)
  rw [h]
  rcases findUser db u with _ | d <;> rfl

theorem attachImage_item (e : ExpenseData) (up : Option ImageUpload) :
    (attachImage e up).item = e.item := by cases up <;> rfl

theorem attachImage_price (e : ExpenseData) (up : Option ImageUpload) :
    (attachImage e up).price = e.price := by cases up <;> rfl

theorem attachImage_currency (e : ExpenseData) (up : Option ImageUpload) :
    (attachImage e up).currency = e.currency := by cases up <;> rfl

theorem attachImage_date (e : ExpenseData) (up : Option ImageUpload) :
    (attachImage e up).date = e.date := by cases up <;> rfl

/-- Claim C1: for an image from an active user whose caption does not
parse as an expense, the pipeline decides by confidence tier —
confidence ≥ 0.85 auto-saves the extracted expense (caption hint may
override the item name); 0.5 ≤ confidence < 0.85 stores the draft
(currency re-stamped for the preview) and moves the user to
`awaiting_ocr_confirmation` without persisting; confidence < 0.5 asks for
the amount when a numberless caption hint exists and otherwise asks for a
clearer photo; both boundaries 0.85 and 0.5 belong to the higher tier. -/
theorem C1_image_confidence_tiers (db : DB) (u caption : Str) (ty : YMD)
    (upl : Option ImageUpload) (ocr : OCRResult) (e : ExpenseData)
    (_hactive : getUserState db u = .active)
    (hnoparse : extractExpenseData (isoDate ty) caption = none)
    (hexp : ocr.expense = some e) :
    ((85 / 100 : ℚ) ≤ ocr.confidence →
      ∃ s : Summary,
        processImageMessageWith ocr upl caption u ty db =
          (ImageResult.saved s false,
           (addToMongo (attachImage
             { (if !(captionNameHint caption).isEmpty then
                  { e with item := captionNameHint caption } else e) with
               currency := getUserCurrency db u,
               price := round2 (if !(captionNameHint caption).isEmpty then
                  { e with item := captionNameHint caption } else e).price } upl) u db).2) ∧
        (processImageMessageWith ocr upl caption u ty db).2.expenses =
          db.expenses ++
            [(addToMongo (attachImage
               { (if !(captionNameHint caption).isEmpty then
                    { e with item := captionNameHint caption } else e) with
                 currency := getUserCurrency db u,
                 price := round2 (if !(captionNameHint caption).isEmpty then
                    { e with item := captionNameHint caption } else e).price } upl) u db).1]) ∧
    ((1 / 2 : ℚ) ≤ ocr.confidence → ocr.confidence < 85 / 100 →
      processImageMessageWith ocr upl caption u ty db =
        (ImageResult.confirmationRequested,
         storePendingExpense db u
           { (if !(captionNameHint caption).isEmpty then
                { e with item := captionNameHint caption } else e) with
             currency := getUserCurrency db u }) ∧
      getPendingExpense (processImageMessageWith ocr upl caption u ty db).2 u =
        some { (if !(captionNameHint caption).isEmpty then
                  { e with item := captionNameHint caption } else e) with
               currency := getUserCurrency db u } ∧
      getUserState (processImageMessageWith ocr upl caption u ty db).2 u =
        .awaiting_ocr_confirmation ∧
      (processImageMessageWith ocr upl caption u ty db).2.expenses = db.expenses) ∧
    (ocr.confidence < 1 / 2 →
      ((captionNameHint caption).isEmpty = false →
        (processImageMessageWith ocr upl caption u ty db).1 =
          ImageResult.amountRequested (captionNameHint caption) ∧
        (processImageMessageWith ocr upl caption u ty db).2.expenses = db.expenses) ∧
      ((captionNameHint caption).isEmpty = true →
        processImageMessageWith ocr upl caption u ty db =
          (ImageResult.clearerPhotoRequested, db))) := by
  have hfc : (if !(jsTrim caption).isEmpty then
      extractExpenseData (isoDate ty) caption else none) = none := by
    by_cases h : (jsTrim caption).isEmpty <;> simp [h, hnoparse]
  refine ⟨?_, ?_, ?_⟩
  · intro h85
    unfold processImageMessageWith
    dsimp only
    rw [hfc, hexp]
    dsimp only
    rw [if_pos h85]
    dsimp only
    exact ⟨_, rfl, addToMongo_expenses _ _ _⟩
  · intro h05 hlt
    have h05x : (5 / 10 : ℚ) ≤ ocr.confidence := by
      calc (5 / 10 : ℚ) = 1 / 2 := by norm_num
        _ ≤ ocr.confidence := h05
    unfold processImageMessageWith
    dsimp only
    rw [hfc, hexp]
    dsimp only
    rw [if_neg (not_le.mpr hlt), if_pos h05x]
    dsimp only
    refine ⟨rfl, getPendingExpense_store _ _ _, getUserState_store _ _ _, ?_⟩
    exact userUpsert_expenses _ _ _ _
  · intro hlow
    have hn85 : ¬ (85 / 100 : ℚ) ≤ ocr.confidence :=
      not_le.mpr (lt_of_lt_of_le hlow (by norm_num))
    have hn05 : ¬ (5 / 10 : ℚ) ≤ ocr.confidence := by
      rw [show (5 / 10 : ℚ) = 1 / 2 by norm_num]
      exact not_le.mpr hlow
    constructor
    · intro hh
      unfold processImageMessageWith
      dsimp only
      rw [hfc]
      dsimp only
      rw [if_neg hn85, if_neg hn05, if_pos (by rw [hh]; rfl)]
      exact ⟨rfl, userUpsert_expenses _ _ _ _⟩
    · intro hh
      unfold processImageMessageWith
      dsimp only
      rw [hfc]
      dsimp only
      rw [if_neg hn85, if_neg hn05, if_neg (by rw [hh]; simp)]

/-- Witness for C1: confidence 0.6 with numberless caption "Receipt" lands
in the confirmation tier — the user moves to `awaiting_ocr_confirmation`
and the draft carries the caption hint. -/
theorem C1_witness :
    getUserState
      ((processImageMessageWith
        ⟨6 / 10, some ⟨"Lunch".data, 10, "USD".data, "2024-03-07".data, none, none, none⟩⟩
        none ("Receipt".data) ("15550001@c.us".data) ⟨2024, 3, 7⟩
        ⟨[{ userId := "15550001@c.us".data, state := .active,
            currency := some ("EUR".data), pendingExpense := none,
            pendingCurrency := none }], [], [], []⟩).2)
      ("15550001@c.us".data) = .awaiting_ocr_confirmation := by
  exact (C1_image_confidence_tiers
    ⟨[{ userId := "15550001@c.us".data, state := .active,
        currency := some ("EUR".data), pendingExpense := none,
        pendingCurrency := none }], [], [], []⟩
    ("15550001@c.us".data) ("Receipt".data) ⟨2024, 3, 7⟩ none
    ⟨6 / 10, some ⟨"Lunch".data, 10, "USD".data, "2024-03-07".data, none, none, none⟩⟩
    ⟨"Lunch".data, 10, "USD".data, "2024-03-07".data, none, none, none⟩
    rfl (by decide) rfl).2.1 (by norm_num) (by norm_num) |>.2.2.1

/-- Counterexample to claim C4 as stated: a medium-confidence image
expense with price 10.123 is stored as a pending draft and then committed
by a "yes" reply with price 10.123 — `handleOCRConfirmation` re-stamps the
currency but never rounds the draft's price, so the persisted price is not
rounded to 2 decimal places. -/
theorem C4_counterexample :
    (handleOCRConfirmation ("yes".data) ("15550001@c.us".data) ⟨2024, 3, 7⟩
      (processImageMessageWith
        ⟨6 / 10, some ⟨"Lunch".data, 10123 / 1000, "USD".data, "2024-03-07".data,
          none, none, none⟩⟩
        none ("Receipt".data) ("15550001@c.us".data) ⟨2024, 3, 7⟩
        ⟨[{ userId := "15550001@c.us".data, state := .active,
            currency := some ("EUR".data), pendingExpense := none,
            pendingCurrency := none }], [], [], []⟩).2).2.expenses =
      [{ userId := "15550001@c.us".data, item := "Receipt".data,
         price := 10123 / 1000, currency := "EUR".data, date := "2024-03-07".data,
         number := 1 }] ∧
    round2 (10123 / 1000 : ℚ) ≠ (10123 / 1000 : ℚ) := by
  constructor
  · have hmid : processImageMessageWith
        ⟨6 / 10, some ⟨"Lunch".data, 10123 / 1000, "USD".data, "2024-03-07".data,
          none, none, none⟩⟩
        none ("Receipt".data) ("15550001@c.us".data) ⟨2024, 3, 7⟩
        ⟨[{ userId := "15550001@c.us".data, state := .active,
            currency := some ("EUR".data), pendingExpense := none,
            pendingCurrency := none }], [], [], []⟩ =
        (ImageResult.confirmationRequested,
         ⟨[{ userId := "15550001@c.us".data, state := .awaiting_ocr_confirmation,
             currency := some ("EUR".data),
             pendingExpense := some ⟨"Receipt".data, 10123 / 1000, "EUR".data,
               "2024-03-07".data, none, none, none⟩,
             pendingCurrency := none }], [], [], []⟩) := by
      unfold processImageMessageWith
      dsimp only
      rw [show (if !(jsTrim ("Receipt".data)).isEmpty then
          extractExpenseData (isoDate ⟨2024, 3, 7⟩) ("Receipt".data) else none) = none
        from by decide]
      dsimp only
      rw [if_neg (by norm_num), if_pos (by norm_num)]
      rfl
    rw [hmid]
    rfl
  · norm_num [round2]

/-- Claim C4 as amended: every expense persisted by the add/resolve paths
gets currency equal to the user's stored preferred currency (never the
detected one); the price is rounded to 2 decimals on the free-text add,
the image-pipeline save and the pending-image finalization, but the
OCR-confirmation commit persists the pending draft's price exactly as
stored, without rounding. -/
theorem C4_persisted_currency_and_rounding :
    (∀ (text u : Str) (ty : YMD) (db : DB) (e0 : ExpenseData),
      extractExpenseData (isoDate ty) text = some e0 →
      (processExpenseMessage text u ty db).2.expenses =
        db.expenses ++
          [{ userId := u, item := e0.item, price := round2 e0.price,
             currency := getUserCurrency db u, date := e0.date,
             number := counterVal db u + 1 }]) ∧
    (∀ (caption u : Str) (ty : YMD) (db : DB) (upl : Option ImageUpload)
       (ocr : OCRResult) (e0 : ExpenseData),
      (jsTrim caption).isEmpty = false →
      extractExpenseData (isoDate ty) caption = some e0 →
      (processImageMessageWith ocr upl caption u ty db).2.expenses =
        db.expenses ++
          [{ userId := u, item := e0.item, price := round2 e0.price,
             currency := getUserCurrency db u, date := e0.date,
             number := counterVal db u + 1 }]) ∧
    (∀ (userText u : Str) (ty : YMD) (db : DB) (p e0 : ExpenseData),
      getPendingExpense db u = some p →
      extractExpenseData (isoDate ty) (jsTrim userText) = some e0 →
      (finalizePendingImageExpense userText u ty db).2.expenses =
        db.expenses ++
          [{ userId := u, item := e0.item, price := round2 e0.price,
             currency := getUserCurrency db u, date := e0.date,
             number := counterVal db u + 1 }]) ∧
    (∀ (resp u : Str) (ty : YMD) (db : DB) (p : ExpenseData),
      jsTrim (jsToLower resp) = "yes".data →
      getPendingExpense db u = some p →
      (handleOCRConfirmation resp u ty db).2.expenses =
        db.expenses ++
          [{ userId := u, item := p.item, price := p.price,
             currency := getUserCurrency db u, date := p.date,
             number := counterVal db u + 1 }]) := by
  refine ⟨?_, ?_, ?_, ?_⟩
  · intro text u ty db e0 hparse
    unfold processExpenseMessage
    rw [hparse]
    rw [addToMongo_expenses, addToMongo_doc, getNextExpenseNumber_val]
  · intro caption u ty db upl ocr e0 htrim hparse
    unfold processImageMessageWith
    dsimp only
    rw [htrim]
    rw [if_pos (by decide), hparse]
    dsimp only
    rw [addToMongo_expenses, addToMongo_doc, getNextExpenseNumber_val,
      attachImage_item, attachImage_price, attachImage_currency, attachImage_date]
  · intro userText u ty db p e0 hpending hparse
    unfold finalizePendingImageExpense
    rw [hpending]
    dsimp only
    rw [hparse]
    dsimp only
    rw [clearPendingExpense_expenses, addToMongo_expenses, addToMongo_doc,
      getNextExpenseNumber_val]
  · intro resp u ty db p hyes hpending
    have hcond : (jsTrim (jsToLower resp) == "yes".data ||
        jsTrim (jsToLower resp) == "y".data) = true := by simp [hyes]
    unfold handleOCRConfirmation
    dsimp only
    rw [hcond, if_pos rfl, hpending]
    dsimp only
    rw [clearPendingExpense_expenses, addToMongo_expenses, addToMongo_doc,
      getNextExpenseNumber_val]

/-- Witness for the amended C4: "Coffee 10.567" from a fresh user is
persisted with price 10.57 (rounded) and the default stored currency. -/
theorem C4_witness :
    (processExpenseMessage ("Coffee 10.567".data) ("15550001@c.us".data)
      ⟨2024, 3, 7⟩ ⟨[], [], [], []⟩).2.expenses =
      [{ userId := "15550001@c.us".data, item := "Coffee".data,
         price := 1057 / 100, currency := "USD".data, date := "2024-03-07".data,
         number := 1 }] := by
  have hval : tokenValQ ("10.567".data) = 10567 / 1000 := by
    have htake : ("10.567".data).takeWhile isDigitC = "10".data := by decide
    have hdrop : ("10.567".data).dropWhile isDigitC = '.' :: "567".data := by decide
    have hip : digitsVal ("10".data) = 10 := by decide
    have hf : digitsVal ("567".data) = 567 := by decide
    simp only [tokenValQ, htake, hdrop, hip, hf]
    norm_num
  have hparse : extractExpenseData (isoDate ⟨2024, 3, 7⟩) ("Coffee 10.567".data) =
      some ⟨"Coffee".data, 10567 / 1000, "USD".data, "2024-03-07".data,
        none, none, none⟩ := by
    have hsplit : splitLastNumber (jsTrim ("Coffee 10.567".data)) =
        some ("Coffee ".data, "10.567".data, []) := by decide
    have hne : (jsTrim ("Coffee 10.567".data)).isEmpty = false := by decide
    have hcur : detectCurrency (jsTrim ("Coffee 10.567".data)) = none := by decide
    have hitem : jsTrim (collapseWs (jsTrim ("Coffee ".data))) = "Coffee".data := by
      decide
    have hdate : isoDate ⟨2024, 3, 7⟩ = "2024-03-07".data := by decide
    rw [hdate]
    simp only [extractExpenseData, hsplit, hne, Bool.false_eq_true, if_false,
      hcur, Option.getD_none, hval]
    simp only [Option.some_inj]
    have hb : (jsTrim ("Coffee ".data)).isEmpty = false := by decide
    simp only [hb, Bool.not_false, if_true]
    rw [hitem]
  have h := C4_persisted_currency_and_rounding.1 ("Coffee 10.567".data)
    ("15550001@c.us".data) ⟨2024, 3, 7⟩ ⟨[], [], [], []⟩ _ hparse
  rw [h]
  have hr : round2 ((10567 : ℚ) / 1000) = 1057 / 100 := by norm_num [round2]
  simp only [hr]
  rfl

/-- Claim C7, evaluated at the failing input: a user has expense #1 "Tea"
(created first) and #2 "Coffee" (created second); "no it will be Juice 15"
overwrites record #1 — the first-inserted one — and leaves record #2
unchanged.  `handleCorrection` sorts on `createdAt`, but `ExpenseSchema`
declares no such path (no `timestamps` option), so every document lacks
the sort key and the scan returns the records in natural order: the
"most recent expense" lookup via the missing key actually yields the oldest
record, contradicting both the spec and the source's own comment. -/
theorem C7_correction_updates_first_inserted :
    (handleCorrection ("no it will be Juice 15".data) ("15550001@c.us".data)
      ⟨2024, 3, 7⟩
      ⟨[{ userId := "15550001@c.us".data, state := .active,
          currency := some ("EUR".data), pendingExpense := none,
          pendingCurrency := none }],
       [{ userId := "15550001@c.us".data, item := "Tea".data, price := 10,
          currency := "EUR".data, date := "2024-03-01".data, number := 1 },
        { userId := "15550001@c.us".data, item := "Coffee".data, price := 12,
          currency := "EUR".data, date := "2024-03-02".data, number := 2 }],
       [], []⟩).2.expenses =
      [{ userId := "15550001@c.us".data, item := "Juice".data, price := 15,
         currency := "EUR".data, date := "2024-03-07".data, number := 1 },
       { userId := "15550001@c.us".data, item := "Coffee".data, price := 12,
         currency := "EUR".data, date := "2024-03-02".data, number := 2 }] := by
  have hscan : noItWillBeScan ("no it will be Juice 15".data) =
      some ("Juice 15".data) := by decide
  have hparse : extractExpenseData (isoDate ⟨2024, 3, 7⟩)
      (jsTrim ("Juice 15".data)) =
      some ⟨"Juice".data, 15, "USD".data, "2024-03-07".data, none, none, none⟩ := by
    decide
  unfold handleCorrection
  rw [hscan]
  dsimp only
  rw [hparse]
  dsimp only
  have hr : round2 (15 : ℚ) = 15 := by norm_num [round2]
  rw [hr]
  rfl

/-!  Decimal-numeral lemmas for claim C6  -/

theorem digitCh_toNat {n : Nat} (h : n < 10) : (digitCh n).toNat = 48 + n := by
  interval_cases n <;> decide

theorem digitsVal_append_single (xs : Str) (c : Char) :
    digitsVal (xs ++ [c]) = digitsVal xs * 10 + (c.toNat - 48) := by
  unfold digitsVal
  rw [List.foldl_append]
  rfl

theorem natStrAux_spec : ∀ f n : Nat, n < f →
    digitsVal (natStrAux f n) = n ∧
    1 ≤ (natStrAux f n).length ∧
    n < 10 ^ (natStrAux f n).length ∧
    (2 ≤ (natStrAux f n).length → 10 ^ ((natStrAux f n).length - 1) ≤ n) := by
  intro f
  induction f with
  | zero => intro n h; omega
  | succ f ih =>
    intro n hn
    by_cases h10 : n < 10
    · simp only [natStrAux, if_pos h10, List.length_cons, List.length_nil,
        Nat.zero_add]
      have hv : digitsVal [digitCh n] = 0 * 10 + ((digitCh n).toNat - 48) := rfl
      refine ⟨?_, by omega, ?_, ?_⟩
      · rw [hv, digitCh_toNat h10]
        omega
      · rw [pow_one]
        omega
      · intro h2
        omega
    · have hdiv : n / 10 < f := by omega
      obtain ⟨ih1, ih2, ih3, ih4⟩ := ih (n / 10) hdiv
      simp only [natStrAux, if_neg h10, digitsVal_append_single,
        List.length_append, List.length_cons, List.length_nil, Nat.zero_add]
      have hc : (digitCh (n % 10)).toNat = 48 + n % 10 := digitCh_toNat (by omega)
      refine ⟨?_, by omega, ?_, ?_⟩
      · rw [ih1, hc]
        omega
      · have hp : (10 : Nat) ^ ((natStrAux f (n / 10)).length + 1) =
            10 ^ (natStrAux f (n / 10)).length * 10 := pow_succ 10 _
        omega
      · intro hlen2
        rw [Nat.add_sub_cancel]
        rcases Nat.lt_or_ge (natStrAux f (n / 10)).length 2 with hL | hL
        · have hL1 : (natStrAux f (n / 10)).length = 1 := by omega
          rw [hL1, pow_one]
          omega
        · have h4 := ih4 hL
          obtain ⟨k, hk⟩ : ∃ k, (natStrAux f (n / 10)).length = k + 1 :=
            ⟨(natStrAux f (n / 10)).length - 1, by omega⟩
          rw [hk, Nat.add_sub_cancel] at h4
          rw [hk]
          have hp : (10 : Nat) ^ (k + 1) = 10 ^ k * 10 := pow_succ 10 k
          omega

theorem digitsVal_natStr (n : Nat) : digitsVal (natStr n) = n :=
  (natStrAux_spec (n + 1) n (by omega)).1

theorem natStr_len4 {y : Nat} (h1 : 1000 ≤ y) (h2 : y ≤ 9999) :
    (natStr y).length = 4 := by
  obtain ⟨_, hlen1, hb1, hb2⟩ := natStrAux_spec (y + 1) y (by omega)
  set L := (natStrAux (y + 1) y).length with hL
  have hnat : (natStr y).length = L := rfl
  rw [hnat]
  rcases Nat.lt_or_ge L 4 with h | h
  · exfalso
    have hm : (10 : Nat) ^ L ≤ 10 ^ 3 := Nat.pow_le_pow_right (by norm_num) (by omega)
    have : (10 : Nat) ^ 3 = 1000 := by norm_num
    omega
  · rcases Nat.lt_or_ge L 5 with h5 | h5
    · omega
    · exfalso
      have h4 := hb2 (by omega)
      have hm : (10 : Nat) ^ 4 ≤ 10 ^ (L - 1) := Nat.pow_le_pow_right (by norm_num) (by omega)
      have : (10 : Nat) ^ 4 = 10000 := by norm_num
      omega

theorem natStr_lt10 {m : Nat} (h : m < 10) : natStr m = [digitCh m] := by
  unfold natStr natStrAux
  rw [if_pos h]

theorem natStr_len2 {m : Nat} (h1 : 10 ≤ m) (h2 : m ≤ 99) :
    (natStr m).length = 2 := by
  obtain ⟨_, hlen1, hb1, hb2⟩ := natStrAux_spec (m + 1) m (by omega)
  set L := (natStrAux (m + 1) m).length with hL
  have hnat : (natStr m).length = L := rfl
  rw [hnat]
  rcases Nat.lt_or_ge L 2 with h | h
  · exfalso
    have hL1 : L = 1 := by omega
    rw [hL1] at hb1
    simp at hb1
    omega
  · rcases Nat.lt_or_ge L 3 with h3 | h3
    · omega
    · exfalso
      have h4 := hb2 (by omega)
      have hm : (10 : Nat) ^ 2 ≤ 10 ^ (L - 1) := Nat.pow_le_pow_right (by norm_num) (by omega)
      have : (10 : Nat) ^ 2 = 100 := by norm_num
      omega

theorem pad4_eq_natStr {y : Nat} (h1 : 1000 ≤ y) (h2 : y ≤ 9999) :
    pad4 y = natStr y := by
  unfold pad4
  rw [if_neg (by omega), if_neg (by omega), if_neg (by omega)]

theorem digitsVal_pad2 (m : Nat) : digitsVal (pad2 m) = m := by
  unfold pad2
  by_cases h10 : m < 10
  · rw [if_pos h10]
    have hz : digitsVal ('0' :: natStr m) = digitsVal (natStr m) := rfl
    rw [hz, digitsVal_natStr]
  · rw [if_neg h10, digitsVal_natStr]

theorem pad2_len2 {m : Nat} (h : m ≤ 99) : (pad2 m).length = 2 := by
  unfold pad2
  by_cases h10 : m < 10
  · rw [if_pos h10, natStr_lt10 h10]
    rfl
  · rw [if_neg h10]
    exact natStr_len2 (by omega) h

theorem monthFilterStr_isoDate (a : YMD) (hy1 : 1000 ≤ a.year)
    (hy2 : a.year ≤ 9999) (hm1 : 1 ≤ a.month) (hm2 : a.month ≤ 12) :
    monthFilterStr (isoDate a) = natStr a.year ++ '-' :: pad2 a.month := by
  have hlen4 : (natStr a.year).length = 4 := natStr_len4 hy1 hy2
  have hiso : isoDate a =
      natStr a.year ++ '-' :: (pad2 a.month ++ '-' :: pad2 a.day) := by
    unfold isoDate
    rw [pad4_eq_natStr hy1 hy2]
  have htake : (isoDate a).take 4 = natStr a.year := by
    rw [hiso, ← hlen4, List.take_left]
  have hdrop : (isoDate a).drop 5 = pad2 a.month ++ '-' :: pad2 a.day := by
    have hsplit : isoDate a =
        (natStr a.year ++ ['-']) ++ (pad2 a.month ++ '-' :: pad2 a.day) := by
      rw [hiso]
      simp
    have hlen5 : (natStr a.year ++ ['-']).length = 5 := by simp [hlen4]
    rw [hsplit, ← hlen5, List.drop_left]
  have htake2 : ((isoDate a).drop 5).take 2 = pad2 a.month := by
    rw [hdrop, ← pad2_len2 (show a.month ≤ 99 by omega), List.take_left]
  unfold monthFilterStr jsDateYear jsDateMonth0
  rw [htake, htake2, digitsVal_natStr, digitsVal_pad2]
  have hmm : a.month - 1 + 1 = a.month := by omega
  rw [hmm]

theorem startsWith_month_iff (a r : YMD)
    (hay1 : 1000 ≤ a.year) (hay2 : a.year ≤ 9999)
    (ham1 : 1 ≤ a.month) (ham2 : a.month ≤ 12)
    (hry1 : 1000 ≤ r.year) (hry2 : r.year ≤ 9999)
    (hrm1 : 1 ≤ r.month) (hrm2 : r.month ≤ 12) :
    startsWithS (isoDate r) (monthFilterStr (isoDate a)) = true ↔
      (r.year = a.year ∧ r.month = a.month) := by
  rw [monthFilterStr_isoDate a hay1 hay2 ham1 ham2]
  have hisoR : isoDate r =
      natStr r.year ++ '-' :: (pad2 r.month ++ '-' :: pad2 r.day) := by
    unfold isoDate
    rw [pad4_eq_natStr hry1 hry2]
  unfold startsWithS
  rw [List.isPrefixOf_iff_prefix]
  constructor
  · intro h
    obtain ⟨t, ht⟩ := h
    rw [hisoR] at ht
    simp only [List.append_assoc, List.cons_append] at ht
    have h1 : (natStr a.year ++ '-' :: (pad2 a.month ++ t)).take 4 =
        natStr a.year := by
      rw [← natStr_len4 hay1 hay2, List.take_left]
    have h2 : (natStr r.year ++ '-' :: (pad2 r.month ++ '-' :: pad2 r.day)).take 4 =
        natStr r.year := by
      rw [← natStr_len4 hry1 hry2, List.take_left]
    have e := congrArg (List.take 4) ht
    simp only [List.append_assoc, List.cons_append] at e
    rw [h1, h2] at e
    have hy : r.year = a.year := by
      have hdv := congrArg digitsVal e
      rw [digitsVal_natStr, digitsVal_natStr] at hdv
      exact hdv.symm
    rw [e] at ht
    have htail := List.append_cancel_left ht
    have ht2 : pad2 a.month ++ t = pad2 r.month ++ '-' :: pad2 r.day :=
      ((List.cons.injEq _ _ _ _).mp htail).2
    have h3 : (pad2 a.month ++ t).take 2 = pad2 a.month := by
      rw [← pad2_len2 (show a.month ≤ 99 by omega), List.take_left]
    have h4 : (pad2 r.month ++ '-' :: pad2 r.day).take 2 = pad2 r.month := by
      rw [← pad2_len2 (show r.month ≤ 99 by omega), List.take_left]
    have e2 := congrArg (List.take 2) ht2
    rw [h3, h4] at e2
    have hm : r.month = a.month := by
      have hdv := congrArg digitsVal e2
      rw [digitsVal_pad2, digitsVal_pad2] at hdv
      exact hdv.symm
    exact ⟨hy, hm⟩
  · rintro ⟨hy, hm⟩
    rw [hisoR, hy, hm]
    exact ⟨'-' :: pad2 r.day, by simp⟩

theorem foldl_add_price (l : List ExpenseDoc) :
    ∀ a : ℚ, l.foldl (fun x e2 => x + e2.price) a =
      a + (l.map (fun e2 => e2.price)).sum := by
  induction l with
  | nil => intro a; simp
  | cons e es ih =>
    intro a
    simp only [List.foldl_cons, List.map_cons, List.sum_cons, ih (a + e.price)]
    ring

/-- Claim C6: `calculateMonthlyTotal` sums (rounded to 2 decimals) and
counts exactly the user's records whose date string carries the anchor's
`YYYY-MM` prefix; for dates actually written by the system, that prefix
test holds precisely for records of the same year and month; and the
remaining figure reported by each reconciliation operation (add, edit,
delete, correct-last) equals the stored monthly budget minus that total —
a plain subtraction, never clamped at zero. -/
theorem C6_monthly_total_and_remaining :
    (∀ (db : DB) (u d : Str),
      (calculateMonthlyTotal db u d).totalAmount =
        round2 (((db.expenses.filter (fun e2 => e2.userId == u &&
          startsWithS e2.date (monthFilterStr d))).map (fun e2 => e2.price)).sum) ∧
      (calculateMonthlyTotal db u d).expenseCount =
        (db.expenses.filter (fun e2 => e2.userId == u &&
          startsWithS e2.date (monthFilterStr d))).length) ∧
    (∀ a r : YMD, 1000 ≤ a.year → a.year ≤ 9999 → 1 ≤ a.month → a.month ≤ 12 →
      1000 ≤ r.year → r.year ≤ 9999 → 1 ≤ r.month → r.month ≤ 12 →
      (startsWithS (isoDate r) (monthFilterStr (isoDate a)) = true ↔
        (r.year = a.year ∧ r.month = a.month))) ∧
    (∀ (text u : Str) (ty : YMD) (db : DB) (s : Summary) (db2 : DB),
      processExpenseMessage text u ty db = (.added s, db2) →
      s.remaining = getMonthlyBudget db2 u ty -
        (calculateMonthlyTotal db2 u s.date).totalAmount) ∧
    (∀ (body u : Str) (ty : YMD) (db : DB) (s : Summary) (db2 : DB),
      handleExpenseEdit body u ty db = (.edited s, db2) →
      s.remaining = getMonthlyBudget db2 u ty -
        (calculateMonthlyTotal db2 u s.date).totalAmount) ∧
    (∀ (body u : Str) (ty : YMD) (db : DB) (s : Summary) (db2 : DB),
      handleExpenseDelete body u ty db = (.deleted s, db2) →
      s.remaining = getMonthlyBudget db2 u ty -
        (calculateMonthlyTotal db2 u s.date).totalAmount) ∧
    (∀ (body u : Str) (ty : YMD) (db : DB) (s : Summary) (db2 : DB),
      handleCorrection body u ty db = (.updated s, db2) →
      s.remaining = getMonthlyBudget db2 u ty -
        (calculateMonthlyTotal db2 u s.date).totalAmount) := by
  refine ⟨?_, ?_, ?_, ?_, ?_, ?_⟩
  · intro db u d
    unfold calculateMonthlyTotal
    dsimp only
    rw [foldl_add_price, zero_add]
    exact ⟨rfl, rfl⟩
  · intro a r h1 h2 h3 h4 h5 h6 h7 h8
    exact startsWith_month_iff a r h1 h2 h3 h4 h5 h6 h7 h8
  · intro text u ty db s db2 h
    unfold processExpenseMessage at h
    rcases hx : extractExpenseData (isoDate ty) text with _ | e0
    · rw [hx] at h
      simp at h
    · rw [hx] at h
      simp only [TextAddResult.added.injEq, Prod.mk.injEq] at h
      rw [← h.1, ← h.2]
      rfl
  · intro body u ty db s db2 h
    unfold handleExpenseEdit at h
    rcases hp : parseHashCommand body with _ | nr
    · rw [hp] at h
      simp at h
    · rw [hp] at h
      dsimp only at h
      rcases hfind : findExpenseByNumber db u nr.1 with _ | ex
      · rw [hfind] at h
        simp at h
      · rw [hfind] at h
        dsimp only at h
        by_cases hsw : startsWithS (jsToLower (jsTrim nr.2)) ("edit ".data) = true
        · rw [if_pos hsw] at h
          rcases hscan : editPriceScan (jsTrim nr.2) with _ | pr0
          · rw [hscan] at h
            simp at h
          · rw [hscan] at h
            simp only [EditResult.edited.injEq, Prod.mk.injEq] at h
            rw [← h.1, ← h.2]
            rfl
        · rw [if_neg hsw] at h
          rcases hed : extractExpenseData (isoDate ty) (jsTrim nr.2) with _ | ed
          · rw [hed] at h
            simp at h
          · rw [hed] at h
            simp only [EditResult.edited.injEq, Prod.mk.injEq] at h
            rw [← h.1, ← h.2]
            rfl
  · intro body u ty db s db2 h
    unfold handleExpenseDelete at h
    rcases hp : parseDeleteCommand body with _ | n
    · rw [hp] at h
      simp at h
    · rw [hp] at h
      dsimp only at h
      rcases hfind : findExpenseByNumber db u n with _ | ex
      · rw [hfind] at h
        simp at h
      · rw [hfind] at h
        simp only [DeleteResult.deleted.injEq, Prod.mk.injEq] at h
        rw [← h.1, ← h.2]
        rfl
  · intro body u ty db s db2 h
    unfold handleCorrection at h
    rcases hp : noItWillBeScan body with _ | grp
    · rw [hp] at h
      simp at h
    · rw [hp] at h
      dsimp only at h
      rcases hx : extractExpenseData (isoDate ty) (jsTrim grp) with _ | ce0
      · rw [hx] at h
        simp at h
      · rw [hx] at h
        dsimp only at h
        rcases hfind : findOneByUserSortCreatedAtDesc db u with _ | lastExpense
        · rw [hfind] at h
          simp at h
        · rw [hfind] at h
          simp only [CorrectionResult.updated.injEq, Prod.mk.injEq] at h
          rw [← h.1, ← h.2]
          rfl

/-- Witness for C6: the month-prefix test accepts 2024-03-15 against
anchor 2024-03-07, and adding "Coffee 25" against a 10-budget March yields
remaining = budget − total = −15, unclamped. -/
theorem C6_witness :
    startsWithS (isoDate ⟨2024, 3, 15⟩) (monthFilterStr (isoDate ⟨2024, 3, 7⟩)) =
      true ∧
    ∃ (s : Summary) (db2 : DB),
      processExpenseMessage ("Coffee 25".data) ("15550001@c.us".data) ⟨2024, 3, 7⟩
        ⟨[], [],
         [{ userId := "15550001@c.us".data, month := "2024-03".data,
            budget := 10, currency := "USD".data }], []⟩ = (.added s, db2) ∧
      s.remaining = getMonthlyBudget db2 ("15550001@c.us".data) ⟨2024, 3, 7⟩ -
        (calculateMonthlyTotal db2 ("15550001@c.us".data) s.date).totalAmount ∧
      s.remaining = -15 := by
  constructor
  · exact (C6_monthly_total_and_remaining.2.1 ⟨2024, 3, 7⟩ ⟨2024, 3, 15⟩
      (by norm_num) (by norm_num) (by norm_num) (by norm_num)
      (by norm_num) (by norm_num) (by norm_num) (by norm_num)).mpr ⟨rfl, rfl⟩
  · have hparse : extractExpenseData (isoDate ⟨2024, 3, 7⟩) ("Coffee 25".data) =
        some ⟨"Coffee".data, 25, "USD".data, "2024-03-07".data, none, none, none⟩ := by
      decide
    have hrun : ∃ (s : Summary) (db2 : DB),
        processExpenseMessage ("Coffee 25".data) ("15550001@c.us".data) ⟨2024, 3, 7⟩
          ⟨[], [],
           [{ userId := "15550001@c.us".data, month := "2024-03".data,
              budget := 10, currency := "USD".data }], []⟩ = (.added s, db2) := by
      unfold processExpenseMessage
      rw [hparse]
      exact ⟨_, _, rfl⟩
    obtain ⟨s, db2, hrun⟩ := hrun
    refine ⟨s, db2, hrun, C6_monthly_total_and_remaining.2.2.1 _ _ _ _ _ _ hrun, ?_⟩
    have hs : s.remaining = 10 - round2 (0 + round2 25) := by
      unfold processExpenseMessage at hrun
      rw [hparse] at hrun
      simp only [TextAddResult.added.injEq, Prod.mk.injEq] at hrun
      rw [← hrun.1]
      rfl
    rw [hs]
    norm_num [round2]

/-- Counterexample to claim C8 as stated: "budget 100 excel sheet" matches
both the `budget <number>` shape and the letter-plus-digit free-text shape,
yet it is handled as an Excel export (export phrases outrank the budget
command), not as a budget update; and an empty non-media body gets no
reply at all where the documented recognizer list ends in the generic
fallback prompt. -/
theorem C8_counterexample :
    budgetCmdShape (jsToLower ("budget 100 excel sheet".data)) = true ∧
    ((jsTrim ("budget 100 excel sheet".data)).any isDigitC &&
      (jsTrim ("budget 100 excel sheet".data)).any isAlphaC) = true ∧
    activeDispatch ⟨"budget 100 excel sheet".data, false, false⟩ =
      Handler.excelExport ∧
    Handler.excelExport ≠ Handler.budgetUpdate ∧
    activeDispatch ⟨[], false, false⟩ = Handler.silent ∧
    specDispatch ⟨[], false, false⟩ = Handler.didNotUnderstand := by
  refine ⟨by decide, by decide, by decide, by decide, by decide, by decide⟩

/-- Claim C8 as amended: for every active-state message that is a media
message or has non-whitespace text, the code's guard chain equals
first-match dispatch over the documented recognizer list (export, budget,
currency, help, report, correction, #N edit, #N delete, image, free text,
generic fallback) — an empty non-media body alone deviates, getting
silence instead of the fallback; in particular a message matching both the
budget shape and the free-text shape is handled as a budget update
whenever it contains no export phrase, and in no case is it routed to the
expense parser. -/
theorem C8_priority_dispatch :
    (∀ m : InboundMsg, m.hasMedia = true ∨ (jsTrim m.body).isEmpty = false →
      activeDispatch m = specDispatch m) ∧
    (∀ m : InboundMsg, budgetCmdShape (jsToLower m.body) = true →
      exportPhraseShape (jsToLower m.body) = false →
      activeDispatch m = Handler.budgetUpdate) ∧
    (∀ m : InboundMsg, budgetCmdShape (jsToLower m.body) = true →
      activeDispatch m ≠ Handler.textExpense) := by
  refine ⟨?_, ?_, ?_⟩
  · intro m hm
    unfold activeDispatch specDispatch specRecognizers
    by_cases h1 : exportPhraseShape (jsToLower m.body) = true
    · simp [h1, List.findSome?_cons]
    by_cases h2 : budgetCmdShape (jsToLower m.body) = true
    · simp [h1, h2, List.findSome?_cons]
    by_cases h3 : currencyCmdShape (jsToLower m.body) = true
    · simp [h1, h2, h3, List.findSome?_cons]
    by_cases h4 : (jsToLower m.body == "help".data) = true
    · simp [h1, h2, h3, h4, List.findSome?_cons]
    by_cases h5 : (jsToLower m.body == "report".data) = true
    · simp [h1, h2, h3, h4, h5, List.findSome?_cons]
    by_cases h6 : startsWithS (jsToLower m.body) ("no it will be".data) = true
    · simp [h1, h2, h3, h4, h5, h6, List.findSome?_cons]
    by_cases h7 : editCmdShape (jsToLower m.body) = true
    · simp [h1, h2, h3, h4, h5, h6, h7, List.findSome?_cons]
    by_cases h8 : deleteCmdShape (jsToLower m.body) = true
    · simp [h1, h2, h3, h4, h5, h6, h7, h8, List.findSome?_cons]
    by_cases h9 : m.hasMedia = true
    · simp [h1, h2, h3, h4, h5, h6, h7, h8, h9, List.findSome?_cons]
    have hne : (jsTrim m.body).isEmpty = false := by
      rcases hm with hmed | hne
      · exact absurd hmed h9
      · exact hne
    by_cases h10 : ((jsTrim m.body).any isDigitC && (jsTrim m.body).any isAlphaC) = true
    · simp [h1, h2, h3, h4, h5, h6, h7, h8, h9, h10, hne, List.findSome?_cons]
    · simp [h1, h2, h3, h4, h5, h6, h7, h8, h9, h10, hne, List.findSome?_cons]
  · intro m hb hexp
    unfold activeDispatch
    simp [hb, hexp]
  · intro m hb
    unfold activeDispatch
    by_cases hexp : exportPhraseShape (jsToLower m.body) = true
    · simp [hb, hexp]
    · simp [hb, hexp]

/-- Witness for the amended C8: "budget 2000" (budget and free-text shaped,
no export phrase) is dispatched to the budget handler, matching the
spec-ordered dispatch. -/
theorem C8_witness :
    activeDispatch ⟨"budget 2000".data, false, false⟩ = Handler.budgetUpdate ∧
    activeDispatch ⟨"budget 2000".data, false, false⟩ =
      specDispatch ⟨"budget 2000".data, false, false⟩ := by
  constructor
  · exact C8_priority_dispatch.2.1 ⟨"budget 2000".data, false, false⟩
      (by decide) (by decide)
  · exact C8_priority_dispatch.1 ⟨"budget 2000".data, false, false⟩
      (Or.inr (by decide))

example : detectCurrency ("Coffee 120 bdt".data) = some ("BDT".data) := by decide
example : detectCurrency ("Coffee 120".data) = none := by decide
example : detectCurrency ("taka".data) = some ("BDT".data) := by decide
example : detectCurrency ("I spent 30 EUR".data) = some ("EUR".data) := by decide
example : round2 (10123 / 1000) = 1012 / 100 := by norm_num [round2]
example : isoDate ⟨2024, 3, 7⟩ = "2024-03-07".data := by decide

example :
    extractExpenseData ("2024-03-07".data) ("Coffee 120".data) =
      some ⟨"Coffee".data, 120, "USD".data, "2024-03-07".data, none, none, none⟩ := by
  decide

example :
    extractExpenseData ("2024-03-07".data) ("10 for coffee".data) =
      some ⟨"for coffee".data, 10, "USD".data, "2024-03-07".data, none, none, none⟩ := by
  decide

example :
    extractExpenseData ("2024-03-07".data) ("120".data) =
      some ⟨"Item".data, 120, "USD".data, "2024-03-07".data, none, none, none⟩ := by
  decide

example :
    (extractExpenseData ("2024-03-07".data) ("Tea 12,5 taka".data)).map
        (fun e => (e.item, e.price, e.currency)) =
      some ("Tea".data, 25 / 2, "BDT".data) := by
  have hsplit : splitLastNumber (jsTrim ("Tea 12,5 taka".data)) =
      some ("Tea ".data, "12,5".data, " taka".data) := by decide
  have hne : (jsTrim ("Tea 12,5 taka".data)).isEmpty = false := by decide
  have htake : ("12,5".data).takeWhile isDigitC = "12".data := by decide
  have hdrop : ("12,5".data).dropWhile isDigitC = ',' :: "5".data := by decide
  have hip : digitsVal ("12".data) = 12 := by decide
  have hf : digitsVal ("5".data) = 5 := by decide
  have hval : tokenValQ ("12,5".data) = 25 / 2 := by
    simp only [tokenValQ, htake, hdrop, hip, hf]
    norm_num
  have hcur : detectCurrency (jsTrim ("Tea 12,5 taka".data)) = some ("BDT".data) := by decide
  have hitem : jsTrim (collapseWs ("Tea".data)) = "Tea".data := by decide
  simp [extractExpenseData, hsplit, hne, hval, hcur, hitem]
  decide

example : extractExpenseData ("2024-03-07".data) ("hello there".data) = none := by decide

example : extractExpenseData ("2024-03-07".data) ("   ".data) = none := by decide

end WpExpense
